import Mathlib

/-!
# Linode object-storage bucket resource

A shallow embedding of `linode/resource_linode_object_storage_bucket.go`:
the identity codec (`decodeLinodeObjectStorageBucketID` and the
`fmt.Sprintf("%s:%s", ...)` encoding), and the Create / Read / Update /
Delete functions as explicit state passing over the resource data and a log
of the gateway calls issued so far.

Go strings are modelled as Lean `String`s (Terraform attribute values are
valid UTF-8, and the byte `':'` occurs in valid UTF-8 only as the character
`':'`).  A Go `error` is modelled by its text: `Option String` for a returned
`error` (`none` is `nil`), `Except String _` for a value-or-error result.
A Go panic (the unchecked type assertion of
`expandLinodeObjectStorageBucketCert` on a nil interface value) ends the pass
without a returned value: the outcome records it in `panicked`.
-/

namespace strings

/-- Go `strings.Split` on a one-character separator, over the characters of
the string: the pieces between the occurrences of `sep`, in order. An input
without separator gives one piece; `n` occurrences give `n + 1` pieces. -/
def splitChars (sep : Char) : List Char → List (List Char)
  | [] => [[]]
  | c :: cs =>
    if c = sep then [] :: splitChars sep cs
    else
      match splitChars sep cs with
      | [] => [[c]]
      | p :: ps => (c :: p) :: ps

/-- Go `strings.Split(s, sep)` for a one-character separator. -/
def Split (s : String) (sep : Char) : List String :=
  (splitChars sep s.data).map String.mk

end strings

namespace linode

/-- The expression `fmt.Sprintf("%s:%s", bucket.Cluster, bucket.Label)` that
Create (line 125) and Read (line 88) pass to `SetId`. -/
def sprintfID (cluster label : String) : String :=
  cluster ++ ":" ++ label

/-- The function `decodeLinodeObjectStorageBucketID` (lines 218-227). The
indexings `parts[0]`, `parts[1]` are read with a default that is never
reached: Go evaluates them only after `len(parts) != 2` was false. -/
def decodeLinodeObjectStorageBucketID (id : String) : Except String (String × String) :=
  let parts := strings.Split id ':'
  if parts.length ≠ 2 ∨ parts.getD 0 "" = "" ∨ parts.getD 1 "" = "" then
    .error ("Linode Object Storage Bucket ID must be of the form <Cluster>:<Label>, was provided: " ++ id)
  else
    .ok (parts.getD 0 "", parts.getD 1 "")

/-! ## Data model -/

/-- A non-nil element of the `cert` list of the schema (lines 46-66): a map
with the two required string keys `certificate` and `private_key`. -/
structure CertSpec where
  certificate : String
  private_key : String
deriving DecidableEq, Repr

/-- The attributes of the schema (lines 21-67). `cert` is the `TypeList`
attribute, read in the source as `[]interface{}`: an element is `some` of a
map, or `none` for a nil interface value (what `d.Get("cert")` holds for a
`cert` block whose two fields are both the empty string). -/
structure Attrs where
  cluster : String
  label : String
  acl : String
  cors_enabled : Bool
  cert : List (Option CertSpec)
deriving DecidableEq, Repr

/-- The attribute keys of the schema, as passed to `HasChange` / `HasChanges`. -/
inductive Key where
  | cluster | label | acl | cors_enabled | cert
deriving DecidableEq, Repr

/-- The `*schema.ResourceData` the lifecycle functions receive: the persisted
id, the prior state (the old side of `GetChange`), and the current values
(what `Get` returns and `Set` writes). -/
structure ResourceData where
  id : String
  state : Attrs
  values : Attrs
deriving DecidableEq, Repr

/-- Method `d.HasChange(key)`: the old and the new value differ. -/
def ResourceData.HasChange (d : ResourceData) : Key → Bool
  | .cluster => d.state.cluster != d.values.cluster
  | .label => d.state.label != d.values.label
  | .acl => d.state.acl != d.values.acl
  | .cors_enabled => d.state.cors_enabled != d.values.cors_enabled
  | .cert => d.state.cert != d.values.cert

/-- Method `d.HasChanges(keys...)`: some key has a change. -/
def ResourceData.HasChanges (d : ResourceData) (keys : List Key) : Bool :=
  keys.any d.HasChange

/-- Method `d.SetId(v)`. -/
def ResourceData.SetId (d : ResourceData) (v : String) : ResourceData :=
  { d with id := v }

/-! ## The gateway (`linodego.Client`) -/

/-- Type `linodego.ObjectStorageBucketCreateOptions` as filled at lines 106-111. -/
structure ObjectStorageBucketCreateOptions where
  Cluster : String
  Label : String
  ACL : String
  CorsEnabled : Option Bool
deriving DecidableEq, Repr

/-- Type `linodego.ObjectStorageBucketUpdateAccessOptions`: the zero value has
an empty `ACL` and a nil `CorsEnabled`. -/
structure ObjectStorageBucketUpdateAccessOptions where
  ACL : String := ""
  CorsEnabled : Option Bool := none
deriving DecidableEq, Repr

/-- Type `linodego.ObjectStorageBucketCertUploadOptions`. -/
structure ObjectStorageBucketCertUploadOptions where
  Certificate : String
  PrivateKey : String
deriving DecidableEq, Repr

/-- The fields of `linodego.ObjectStorageBucket` the source reads. -/
structure ObjectStorageBucket where
  Cluster : String
  Label : String
deriving DecidableEq, Repr

/-- The fields of `linodego.ObjectStorageBucketAccess` the source reads. -/
structure ObjectStorageBucketAccess where
  ACL : String
  CorsEnabled : Bool
deriving DecidableEq, Repr

/-- A call on the gateway, with its arguments. -/
inductive Call where
  | GetObjectStorageBucket (cluster label : String)
  | GetObjectStorageBucketAccess (cluster label : String)
  | CreateObjectStorageBucket (opts : ObjectStorageBucketCreateOptions)
  | DeleteObjectStorageBucket (cluster label : String)
  | UpdateObjectStorageBucketAccess (cluster label : String)
      (opts : ObjectStorageBucketUpdateAccessOptions)
  | UploadObjectStorageBucketCert (cluster label : String)
      (opts : ObjectStorageBucketCertUploadOptions)
  | DeleteObjectStorageBucketCert (cluster label : String)
deriving DecidableEq, Repr

/-- One entry of the call log: the call and whether it returned an error. -/
structure Event where
  call : Call
  failed : Bool
deriving DecidableEq, Repr

/-- The log of the gateway calls issued so far, oldest first. -/
abbrev Log := List Event

/-- The gateway the source calls through `meta.(*ProviderMeta).Client`. It is
external to the repository, so it is a parameter: each method answers from the
calls issued before it (the remote state they left) and its arguments, with a
value or an error text. -/
structure Client where
  GetObjectStorageBucket : Log → String → String → Except String ObjectStorageBucket
  GetObjectStorageBucketAccess : Log → String → String → Except String ObjectStorageBucketAccess
  CreateObjectStorageBucket : Log → ObjectStorageBucketCreateOptions → Except String ObjectStorageBucket
  DeleteObjectStorageBucket : Log → String → String → Option String
  UpdateObjectStorageBucketAccess : Log → String → String →
    ObjectStorageBucketUpdateAccessOptions → Option String
  UploadObjectStorageBucketCert : Log → String → String →
    ObjectStorageBucketCertUploadOptions → Option String
  DeleteObjectStorageBucketCert : Log → String → String → Option String

/-- What a lifecycle function leaves behind: the returned `error` (`none` is
`nil`), the resource data, the call log, and whether the function panicked
instead of returning (`err` is then `none`: nothing was returned). -/
structure Outcome where
  err : Option String
  d : ResourceData
  log : Log
  panicked : Bool
deriving DecidableEq, Repr

/-- What the certificate helper, which only reads the resource data, leaves
behind: the returned `error`, the call log, and whether it panicked. -/
structure HelperOutcome where
  err : Option String
  log : Log
  panicked : Bool
deriving DecidableEq, Repr

/-! ## The lifecycle functions -/

/-- The function `expandLinodeObjectStorageBucketCert` (lines 210-216). The
type assertion `v.(map[string]interface{})` of line 211 is unchecked: on a nil
`v` it panics, which is the result `none`. On a map, the two `.(string)`
assertions of lines 213-214 read the keys the schema types as strings. -/
def expandLinodeObjectStorageBucketCert (v : Option CertSpec) :
    Option ObjectStorageBucketCertUploadOptions :=
  match v with
  | none => none
  | some certSpec =>
    some { Certificate := certSpec.certificate, PrivateKey := certSpec.private_key }

/-- The function `resourceLinodeObjectStorageBucketRead` (lines 71-95). -/
def resourceLinodeObjectStorageBucketRead (client : Client) (d : ResourceData) (log : Log) :
    Outcome :=
  match decodeLinodeObjectStorageBucketID d.id with
  | .error _ =>
    ⟨some ("failed to parse Linode ObjectStorageBucket id " ++ d.id), d, log, false⟩
  | .ok (cluster, label) =>
    match client.GetObjectStorageBucket log cluster label with
    | .error err =>
      ⟨some ("failed to find the specified Linode ObjectStorageBucket: " ++ err), d,
        log ++ [⟨.GetObjectStorageBucket cluster label, true⟩], false⟩
    | .ok bucket =>
      let log1 := log ++ [⟨.GetObjectStorageBucket cluster label, false⟩]
      match client.GetObjectStorageBucketAccess log1 cluster label with
      | .error err =>
        ⟨some ("failed to find the access config for the specified Linode ObjectStorageBucket: "
            ++ err), d,
          log1 ++ [⟨.GetObjectStorageBucketAccess cluster label, true⟩], false⟩
      | .ok access =>
        let log2 := log1 ++ [⟨.GetObjectStorageBucketAccess cluster label, false⟩]
        let d1 := d.SetId (sprintfID bucket.Cluster bucket.Label)
        let d2 := { d1 with values := { d1.values with cluster := bucket.Cluster } }
        let d3 := { d2 with values := { d2.values with label := bucket.Label } }
        let d4 := { d3 with values := { d3.values with acl := access.ACL } }
        let d5 := { d4 with values := { d4.values with cors_enabled := access.CorsEnabled } }
        ⟨none, d5, log2, false⟩

/-- The function `resourceLinodeObjectStorageBucketCreate` (lines 97-132). With
a non-empty `cert` list, `cert[0]` goes to
`expandLinodeObjectStorageBucketCert` after the length test only (lines
118-119): a nil element panics there, once the bucket is created. -/
def resourceLinodeObjectStorageBucketCreate (client : Client) (d : ResourceData) (log : Log) :
    Outcome :=
  let cluster := d.values.cluster
  let label := d.values.label
  let acl := d.values.acl
  let corsEnabled := d.values.cors_enabled
  let cert := d.values.cert
  let createOpts : ObjectStorageBucketCreateOptions :=
    { Cluster := cluster, Label := label, ACL := acl, CorsEnabled := some corsEnabled }
  match client.CreateObjectStorageBucket log createOpts with
  | .error err =>
    ⟨some ("failed to create a Linode ObjectStorageBucket: " ++ err), d,
      log ++ [⟨.CreateObjectStorageBucket createOpts, true⟩], false⟩
  | .ok bucket =>
    let log1 := log ++ [⟨.CreateObjectStorageBucket createOpts, false⟩]
    let finish (logn : Log) : Outcome :=
      let d1 := d.SetId (sprintfID bucket.Cluster bucket.Label)
      let d2 := { d1 with values := { d1.values with cluster := bucket.Cluster } }
      let d3 := { d2 with values := { d2.values with label := bucket.Label } }
      let d4 := { d3 with values := { d3.values with acl := acl } }
      let d5 := { d4 with values := { d4.values with cors_enabled := corsEnabled } }
      resourceLinodeObjectStorageBucketRead client d5 logn
    match cert with
    | [] => finish log1
    | cert0 :: _ =>
      match expandLinodeObjectStorageBucketCert cert0 with
      | none => ⟨none, d, log1, true⟩
      | some uploadOpts =>
        match client.UploadObjectStorageBucketCert log1 cluster label uploadOpts with
        | some err =>
          ⟨some ("failed to upload bucket cert: " ++ err), d,
            log1 ++ [⟨.UploadObjectStorageBucketCert cluster label uploadOpts, true⟩], false⟩
        | none =>
          finish (log1 ++ [⟨.UploadObjectStorageBucketCert cluster label uploadOpts, false⟩])

/-- The function `updateLinodeObjectStorageBucketAccess` (lines 165-184); the
resource data is only read, so the result is the error and the log. -/
def updateLinodeObjectStorageBucketAccess (d : ResourceData) (client : Client) (log : Log) :
    Option String × Log :=
  let cluster := d.values.cluster
  let label := d.values.label
  let updateOpts : ObjectStorageBucketUpdateAccessOptions := {}
  let updateOpts :=
    if d.HasChange .acl then { updateOpts with ACL := d.values.acl } else updateOpts
  let updateOpts :=
    if d.HasChange .cors_enabled then
      { updateOpts with CorsEnabled := some d.values.cors_enabled }
    else updateOpts
  match client.UpdateObjectStorageBucketAccess log cluster label updateOpts with
  | some err =>
    (some ("failed to update bucket access: " ++ err),
      log ++ [⟨.UpdateObjectStorageBucketAccess cluster label updateOpts, true⟩])
  | none =>
    (none, log ++ [⟨.UpdateObjectStorageBucketAccess cluster label updateOpts, false⟩])

/-- The function `updateLinodeObjectStorageBucketCert` (lines 186-208). With a
non-empty new `cert` list, `certSpec[0]` goes to
`expandLinodeObjectStorageBucketCert` after the length test only (lines
198-203): a nil element panics there, after the deletion of an old
certificate if there was one. -/
def updateLinodeObjectStorageBucketCert (d : ResourceData) (client : Client) (log : Log) :
    HelperOutcome :=
  let cluster := d.values.cluster
  let label := d.values.label
  let oldCert := d.state.cert
  let newCert := d.values.cert
  let hasOldCert : Bool := oldCert.length != 0
  let upload (logn : Log) : HelperOutcome :=
    let certSpec := newCert
    match certSpec with
    | [] => ⟨none, logn, false⟩
    | certSpec0 :: _ =>
      match expandLinodeObjectStorageBucketCert certSpec0 with
      | none => ⟨none, logn, true⟩
      | some uploadOptions =>
        match client.UploadObjectStorageBucketCert logn cluster label uploadOptions with
        | some err =>
          ⟨some ("failed to upload new bucket cert: " ++ err),
            logn ++ [⟨.UploadObjectStorageBucketCert cluster label uploadOptions, true⟩], false⟩
        | none =>
          ⟨none, logn ++ [⟨.UploadObjectStorageBucketCert cluster label uploadOptions, false⟩],
            false⟩
  if hasOldCert then
    match client.DeleteObjectStorageBucketCert log cluster label with
    | some err =>
      ⟨some ("failed to delete old bucket cert: " ++ err),
        log ++ [⟨.DeleteObjectStorageBucketCert cluster label, true⟩], false⟩
    | none => upload (log ++ [⟨.DeleteObjectStorageBucketCert cluster label, false⟩])
  else upload log

/-- The rest of `resourceLinodeObjectStorageBucketUpdate` once the certificate
helper has ended (lines 144-149): a panic of the helper ends the pass, its
error is returned, and otherwise the read follows. -/
def afterCert (client : Client) (d : ResourceData) (r : HelperOutcome) : Outcome :=
  if r.panicked then ⟨none, d, r.log, true⟩
  else
    match r.err with
    | some err => ⟨some err, d, r.log, false⟩
    | none => resourceLinodeObjectStorageBucketRead client d r.log

/-- The function `resourceLinodeObjectStorageBucketUpdate` (lines 134-150). -/
def resourceLinodeObjectStorageBucketUpdate (client : Client) (d : ResourceData) (log : Log) :
    Outcome :=
  let certStep (logn : Log) : Outcome :=
    if d.HasChange .cert then
      afterCert client d (updateLinodeObjectStorageBucketCert d client logn)
    else resourceLinodeObjectStorageBucketRead client d logn
  if d.HasChanges [.acl, .cors_enabled] then
    match updateLinodeObjectStorageBucketAccess d client log with
    | (some err, loga) => ⟨some err, d, loga, false⟩
    | (none, loga) => certStep loga
  else certStep log

/-- The function `resourceLinodeObjectStorageBucketDelete` (lines 152-163). -/
def resourceLinodeObjectStorageBucketDelete (client : Client) (d : ResourceData) (log : Log) :
    Outcome :=
  match decodeLinodeObjectStorageBucketID d.id with
  | .error _ =>
    ⟨some ("Error parsing Linode ObjectStorageBucket id " ++ d.id), d, log, false⟩
  | .ok (cluster, label) =>
    match client.DeleteObjectStorageBucket log cluster label with
    | some err =>
      ⟨some ("Error deleting Linode ObjectStorageBucket " ++ d.id ++ ": " ++ err), d,
        log ++ [⟨.DeleteObjectStorageBucket cluster label, true⟩], false⟩
    | none =>
      ⟨none, d, log ++ [⟨.DeleteObjectStorageBucket cluster label, false⟩], false⟩

/-! ## Reading a call log -/

/-- The calls that change remote state: everything but the two fetches. -/
def Call.isMutating : Call → Bool
  | .GetObjectStorageBucket _ _ => false
  | .GetObjectStorageBucketAccess _ _ => false
  | _ => true

/-- The calls that concern the TLS certificate. -/
def Call.isCertOp : Call → Bool
  | .UploadObjectStorageBucketCert _ _ _ => true
  | .DeleteObjectStorageBucketCert _ _ => true
  | _ => false

/-- The access-policy update call. -/
def Call.isUpdateAccess : Call → Bool
  | .UpdateObjectStorageBucketAccess _ _ _ => true
  | _ => false

/-- The calls of a log, in order. -/
def calls (log : Log) : List Call := log.map Event.call

/-- The mutating calls of a log, in order. -/
def mutatingCalls (log : Log) : List Call := (calls log).filter Call.isMutating

/-- The options an access-policy update carries: each field is set only when
it has a change, and is left at its zero value otherwise. -/
def changedAccessOptions (d : ResourceData) : ObjectStorageBucketUpdateAccessOptions :=
  { ACL := if d.HasChange .acl then d.values.acl else "",
    CorsEnabled := if d.HasChange .cors_enabled then some d.values.cors_enabled else none }

/-- The events a function added to the log it started from. -/
def issued (before after : Log) : List Event := after.drop before.length

/-- Whether the gateway answers the call with an error, after the calls of
`log`. -/
def Client.fails (client : Client) (log : Log) : Call → Bool
  | .GetObjectStorageBucket cluster label =>
    match client.GetObjectStorageBucket log cluster label with
    | .error _ => true
    | .ok _ => false
  | .GetObjectStorageBucketAccess cluster label =>
    match client.GetObjectStorageBucketAccess log cluster label with
    | .error _ => true
    | .ok _ => false
  | .CreateObjectStorageBucket opts =>
    match client.CreateObjectStorageBucket log opts with
    | .error _ => true
    | .ok _ => false
  | .DeleteObjectStorageBucket cluster label =>
    (client.DeleteObjectStorageBucket log cluster label).isSome
  | .UpdateObjectStorageBucketAccess cluster label opts =>
    (client.UpdateObjectStorageBucketAccess log cluster label opts).isSome
  | .UploadObjectStorageBucketCert cluster label opts =>
    (client.UploadObjectStorageBucketCert log cluster label opts).isSome
  | .DeleteObjectStorageBucketCert cluster label =>
    (client.DeleteObjectStorageBucketCert log cluster label).isSome

/-- Each event of `new`, issued after `log`, carries the answer the gateway
gave to its call at that point. -/
def answersRecorded (client : Client) : Log → List Event → Bool
  | _, [] => true
  | log, e :: es => (e.failed == client.fails log e.call) && answersRecorded client (log ++ [e]) es

/-- No event before the last one of the list has failed. -/
def failedOnlyLast : List Event → Bool
  | [] => true
  | [_] => true
  | e :: es => !e.failed && failedOnlyLast es

/-- The fail-fast reading of the events one pass issued, given whether the
pass returned an error: only the last event may have failed, a failed event
makes the pass return an error, a failed certificate deletion leaves no upload
in the pass, and a failed access-policy update is the only event of the pass. -/
def FailFastLog (isErr : Bool) (new : List Event) : Prop :=
  failedOnlyLast new = true ∧
  (∀ e ∈ new, e.failed = true → isErr = true) ∧
  (∀ c l, (⟨.DeleteObjectStorageBucketCert c l, true⟩ : Event) ∈ new →
    ∀ e ∈ new, ∀ c2 l2 o2, e.call ≠ .UploadObjectStorageBucketCert c2 l2 o2) ∧
  (∀ c l o, (⟨.UpdateObjectStorageBucketAccess c l o, true⟩ : Event) ∈ new →
    new = [⟨.UpdateObjectStorageBucketAccess c l o, true⟩])

/-! ## Sample gateways and resource data -/

/-- A gateway on which every call succeeds: creating and fetching a bucket
return the cluster and label asked for, fetching the access policy returns
`private` with CORS enabled. -/
def okClient : Client where
  GetObjectStorageBucket := fun _ cluster label => .ok ⟨cluster, label⟩
  GetObjectStorageBucketAccess := fun _ _ _ => .ok ⟨"private", true⟩
  CreateObjectStorageBucket := fun _ opts => .ok ⟨opts.Cluster, opts.Label⟩
  DeleteObjectStorageBucket := fun _ _ _ => none
  UpdateObjectStorageBucketAccess := fun _ _ _ _ => none
  UploadObjectStorageBucketCert := fun _ _ _ _ => none
  DeleteObjectStorageBucketCert := fun _ _ _ => none

/-- A gateway on which no bucket exists: every call answers with the
not-found error of the remote API. -/
def absentClient : Client where
  GetObjectStorageBucket := fun _ _ _ => .error "[404] Not found"
  GetObjectStorageBucketAccess := fun _ _ _ => .error "[404] Not found"
  CreateObjectStorageBucket := fun _ _ => .error "[404] Not found"
  DeleteObjectStorageBucket := fun _ _ _ => some "[404] Not found"
  UpdateObjectStorageBucketAccess := fun _ _ _ _ => some "[404] Not found"
  UploadObjectStorageBucketCert := fun _ _ _ _ => some "[404] Not found"
  DeleteObjectStorageBucketCert := fun _ _ _ => some "[404] Not found"

/-- A gateway on which certificate deletion fails and every other call
succeeds. -/
def certDeleteFailsClient : Client :=
  { okClient with DeleteObjectStorageBucketCert := fun _ _ _ => some "[500] Internal error" }

/-- A gateway on which the certificate upload fails and every other call
succeeds. -/
def certUploadFailsClient : Client :=
  { okClient with UploadObjectStorageBucketCert := fun _ _ _ _ => some "[500] Internal error" }

/-- A gateway on which the access-policy update fails and every other call
succeeds. -/
def accessUpdateFailsClient : Client :=
  { okClient with
    UpdateObjectStorageBucketAccess := fun _ _ _ _ => some "[500] Internal error" }

/-- The bucket `us-east:b1` with the given previous and desired attributes
`(acl, cors_enabled, cert)`. -/
def sampleData (prev next : String × Bool × List (Option CertSpec)) : ResourceData :=
  { id := "us-east:b1",
    state := ⟨"us-east", "b1", prev.1, prev.2.1, prev.2.2⟩,
    values := ⟨"us-east", "b1", next.1, next.2.1, next.2.2⟩ }

/-- A sample certificate. -/
def certA : CertSpec := ⟨"PEM_A", "KEY_A"⟩

/-- Another sample certificate. -/
def certB : CertSpec := ⟨"PEM_B", "KEY_B"⟩

end linode

/-! ## Lemmas on splitting -/

namespace strings

theorem splitChars_ne_nil (sep : Char) (l : List Char) : splitChars sep l ≠ [] := by
  cases l with
  | nil => simp [splitChars]
  | cons c cs =>
    unfold splitChars
    split
    · simp
    · split <;> simp

theorem splitChars_of_not_mem (sep : Char) (l : List Char) (h : sep ∉ l) :
    splitChars sep l = [l] := by
  induction l with
  | nil => simp [splitChars]
  | cons c cs ih =>
    have hc : ¬ c = sep := fun e => h (by simp [e])
    have hcs : sep ∉ cs := fun e => h (by simp [e])
    simp [splitChars, hc, ih hcs]

theorem splitChars_append_sep (sep : Char) (a b : List Char) (h : sep ∉ a) :
    splitChars sep (a ++ sep :: b) = a :: splitChars sep b := by
  induction a with
  | nil => simp [splitChars]
  | cons c cs ih =>
    have hc : ¬ c = sep := fun e => h (by simp [e])
    have hcs : sep ∉ cs := fun e => h (by simp [e])
    simp [splitChars, hc, ih hcs]

theorem splitChars_eq_singleton (sep : Char) (l b : List Char)
    (h : splitChars sep l = [b]) : l = b ∧ sep ∉ b := by
  induction l generalizing b with
  | nil =>
    simp [splitChars] at h
    subst h
    simp
  | cons c cs ih =>
    unfold splitChars at h
    split at h
    · simp at h
      exact absurd h.2 (splitChars_ne_nil sep cs)
    · rename_i hc
      split at h
      · rename_i hnil
        exact absurd hnil (splitChars_ne_nil sep cs)
      · rename_i p ps hps
        simp at h
        obtain ⟨h1, h2⟩ := h
        subst h1 h2
        obtain ⟨e, hm⟩ := ih p hps
        subst e
        refine ⟨rfl, ?_⟩
        simp only [List.mem_cons, not_or]
        exact ⟨fun e => hc e.symm, hm⟩

theorem splitChars_eq_pair (sep : Char) (l a b : List Char)
    (h : splitChars sep l = [a, b]) : l = a ++ sep :: b ∧ sep ∉ a ∧ sep ∉ b := by
  induction l generalizing a with
  | nil => simp [splitChars] at h
  | cons c cs ih =>
    unfold splitChars at h
    split at h
    · rename_i hc
      simp at h
      obtain ⟨h1, h2⟩ := h
      obtain ⟨e, hm⟩ := splitChars_eq_singleton sep cs b h2
      subst h1 e hc
      simp [hm]
    · rename_i hc
      split at h
      · simp at h
      · rename_i p ps hps
        simp at h
        obtain ⟨h1, h2⟩ := h
        subst h1 h2
        obtain ⟨e, hp, hb⟩ := ih p hps
        subst e
        refine ⟨rfl, ?_, hb⟩
        simp only [List.mem_cons, not_or]
        exact ⟨fun e => hc e.symm, hp⟩

/-- Splitting a string yields two pieces exactly when it is the two pieces,
free of the separator, joined by one separator. -/
theorem Split_eq_pair_iff (s a b : String) (sep : Char) :
    Split s sep = [a, b] ↔
      (sep ∉ a.data ∧ sep ∉ b.data ∧ s = a ++ String.mk [sep] ++ b) := by
  constructor
  · intro h
    unfold Split at h
    have h2 : splitChars sep s.data = [a.data, b.data] := by
      have := congrArg (List.map String.data) h
      simpa [Function.comp_def] using this
    obtain ⟨e, ha, hb⟩ := splitChars_eq_pair sep s.data a.data b.data h2
    refine ⟨ha, hb, ?_⟩
    apply String.ext
    simp [e]
  · rintro ⟨ha, hb, e⟩
    subst e
    unfold Split
    simp [splitChars_append_sep sep _ _ ha, splitChars_of_not_mem sep _ hb]

end strings

namespace linode

/-! ## Identity codec -/

theorem decode_of_Split_pair (id p0 p1 : String) (h : strings.Split id ':' = [p0, p1])
    (h0 : p0 ≠ "") (h1 : p1 ≠ "") :
    decodeLinodeObjectStorageBucketID id = .ok (p0, p1) := by
  simp [decodeLinodeObjectStorageBucketID, h, h0, h1]

theorem decode_ok_iff_Split (id cluster label : String) :
    decodeLinodeObjectStorageBucketID id = .ok (cluster, label) ↔
      (strings.Split id ':' = [cluster, label] ∧ cluster ≠ "" ∧ label ≠ "") := by
  constructor
  · intro h
    unfold decodeLinodeObjectStorageBucketID at h
    simp only at h
    split at h
    · simp at h
    · rename_i hn
      simp only [not_or, not_not] at hn
      obtain ⟨hlen, hp0, hp1⟩ := hn
      match hs : strings.Split id ':', hlen with
      | [a, b], _ =>
        simp [hs] at h hp0 hp1
        obtain ⟨e1, e2⟩ := h
        subst e1 e2
        exact ⟨rfl, hp0, hp1⟩
  · rintro ⟨h, h0, h1⟩
    exact decode_of_Split_pair id cluster label h h0 h1

theorem decode_ok_or_error (id : String) :
    (∃ cluster label, decodeLinodeObjectStorageBucketID id = .ok (cluster, label)) ∨
    decodeLinodeObjectStorageBucketID id = .error
      ("Linode Object Storage Bucket ID must be of the form <Cluster>:<Label>, was provided: "
        ++ id) := by
  unfold decodeLinodeObjectStorageBucketID
  simp only
  split
  · exact Or.inr rfl
  · exact Or.inl ⟨_, _, rfl⟩

/-- C1. Identity round trip: for a cluster and a label that are both non-empty
and free of `':'`, decoding the token `cluster ++ ":" ++ label` built by the
`Sprintf` of Create and Read succeeds and returns exactly `(cluster, label)`. -/
theorem decode_sprintfID_roundtrip (cluster label : String)
    (hc : cluster ≠ "") (hl : label ≠ "")
    (hcs : ':' ∉ cluster.data) (hls : ':' ∉ label.data) :
    decodeLinodeObjectStorageBucketID (sprintfID cluster label) = .ok (cluster, label) := by
  apply decode_of_Split_pair _ _ _ _ hc hl
  exact (strings.Split_eq_pair_iff _ cluster label ':').2 ⟨hcs, hls, rfl⟩

theorem decode_sprintfID_roundtrip_witness :
    decodeLinodeObjectStorageBucketID (sprintfID "us-east" "b1") = .ok ("us-east", "b1") :=
  decode_sprintfID_roundtrip "us-east" "b1" (by decide) (by decide) (by decide) (by decide)

/-- C2. Identity rejection: for every token, decoding succeeds exactly when
splitting the token on `':'` yields exactly two non-empty parts (and then
returns those two parts), and returns the error otherwise; the split yields
two parts exactly when the token is two `':'`-free strings joined by one
`':'`. In particular `"a"`, `"a:b:c"`, `":b"` and `"a:"` are rejected. -/
theorem decode_rejects_unless_two_nonempty_parts :
    (∀ id : String,
      (∀ cluster label, decodeLinodeObjectStorageBucketID id = .ok (cluster, label) ↔
        (strings.Split id ':' = [cluster, label] ∧ cluster ≠ "" ∧ label ≠ "")) ∧
      ((¬ ∃ p0 p1, strings.Split id ':' = [p0, p1] ∧ p0 ≠ "" ∧ p1 ≠ "") →
        decodeLinodeObjectStorageBucketID id = .error
          ("Linode Object Storage Bucket ID must be of the form <Cluster>:<Label>, was provided: "
            ++ id)) ∧
      (∀ p0 p1, strings.Split id ':' = [p0, p1] ↔
        (':' ∉ p0.data ∧ ':' ∉ p1.data ∧ id = p0 ++ ":" ++ p1))) ∧
    (decodeLinodeObjectStorageBucketID "a").toBool = false ∧
    (decodeLinodeObjectStorageBucketID "a:b:c").toBool = false ∧
    (decodeLinodeObjectStorageBucketID ":b").toBool = false ∧
    (decodeLinodeObjectStorageBucketID "a:").toBool = false := by
  refine ⟨fun id => ⟨decode_ok_iff_Split id, ?_, ?_⟩, by decide, by decide, by decide, by decide⟩
  · intro hno
    rcases decode_ok_or_error id with ⟨c, l, h⟩ | h
    · exact absurd ⟨c, l, (decode_ok_iff_Split id c l).1 h⟩ hno
    · exact h
  · intro p0 p1
    exact strings.Split_eq_pair_iff id p0 p1 ':'



/-! ## Call logs of the lifecycle functions -/

@[simp]
theorem issued_self (log : Log) : issued log log = [] := by
  simp [issued]

@[simp]
theorem issued_append (log new : Log) : issued log (log ++ new) = new := by
  simp [issued]

theorem failedOnlyLast_spec (l : List Event) (h : failedOnlyLast l = true)
    (pre : List Event) (e : Event) (post : List Event)
    (hl : l = pre ++ e :: post) (he : e.failed = true) : post = [] := by
  induction l generalizing pre with
  | nil => simp at hl
  | cons a as ih =>
    cases as with
    | nil =>
      cases pre with
      | nil => simp at hl; exact hl.2
      | cons p ps => simp at hl
    | cons b bs =>
      simp only [failedOnlyLast, Bool.and_eq_true, Bool.not_eq_true'] at h
      cases pre with
      | nil =>
        simp only [List.nil_append, List.cons.injEq] at hl
        rw [hl.1] at h
        rw [he] at h
        exact absurd h.1 (by simp)
      | cons p ps =>
        simp only [List.cons_append, List.cons.injEq] at hl
        exact ih h.2 ps hl.2

theorem answersRecorded_append (client : Client) (log : Log) (a b : List Event) :
    answersRecorded client log (a ++ b) =
      (answersRecorded client log a && answersRecorded client (log ++ a) b) := by
  induction a generalizing log with
  | nil => simp [answersRecorded]
  | cons x xs ih =>
    have h := ih (log ++ [x])
    simp only [List.append_assoc, List.singleton_append] at h
    show answersRecorded client log (x :: (xs ++ b)) = _
    simp only [answersRecorded, h, Bool.and_assoc]

theorem answersRecorded_spec (client : Client) (log : Log) (new : List Event)
    (h : answersRecorded client log new = true)
    (pre : List Event) (e : Event) (post : List Event) (hl : new = pre ++ e :: post) :
    e.failed = client.fails (log ++ pre) e.call := by
  subst hl
  rw [answersRecorded_append] at h
  simp only [answersRecorded, Bool.and_eq_true, beq_iff_eq] at h
  exact h.2.1

theorem access_opts_eq (d : ResourceData) :
    (if d.HasChange .cors_enabled = true then
        ({ ACL := (if d.HasChange .acl = true then
              ({ ACL := d.values.acl, CorsEnabled := none } : ObjectStorageBucketUpdateAccessOptions)
            else { ACL := "", CorsEnabled := none }).ACL,
           CorsEnabled := some d.values.cors_enabled } : ObjectStorageBucketUpdateAccessOptions)
      else
        if d.HasChange .acl = true then { ACL := d.values.acl, CorsEnabled := none }
        else { ACL := "", CorsEnabled := none }) = changedAccessOptions d := by
  unfold changedAccessOptions
  by_cases h1 : d.HasChange .acl = true <;> by_cases h2 : d.HasChange .cors_enabled = true <;>
    simp [h1, h2]

/-- The access-policy update issues one call, carrying only the changed
fields, and returns an error exactly when that call does. -/
theorem access_eq (d : ResourceData) (client : Client) (log : Log) :
    updateLinodeObjectStorageBucketAccess d client log =
      match client.UpdateObjectStorageBucketAccess log d.values.cluster d.values.label
          (changedAccessOptions d) with
      | some err =>
        (some ("failed to update bucket access: " ++ err),
          log ++ [⟨.UpdateObjectStorageBucketAccess d.values.cluster d.values.label
            (changedAccessOptions d), true⟩])
      | none =>
        (none, log ++ [⟨.UpdateObjectStorageBucketAccess d.values.cluster d.values.label
          (changedAccessOptions d), false⟩]) := by
  unfold updateLinodeObjectStorageBucketAccess
  simp only [access_opts_eq]

/-- The shapes of a certificate update: an optional deletion, then an optional
upload, stopping at the first failure, or at the panic on a nil element. The
flags of the events are the answers of the gateway. -/
theorem cert_cases (d : ResourceData) (client : Client) (log : Log) :
    ∃ (err : Option String) (new : List Event) (p : Bool),
      updateLinodeObjectStorageBucketCert d client log = ⟨err, log ++ new, p⟩ ∧
      answersRecorded client log new = true ∧
      ((d.state.cert ≠ [] ∧ err.isSome = true ∧ p = false ∧
          new = [⟨.DeleteObjectStorageBucketCert d.values.cluster d.values.label, true⟩]) ∨
        (d.state.cert ≠ [] ∧ d.values.cert = [] ∧ err = none ∧ p = false ∧
          new = [⟨.DeleteObjectStorageBucketCert d.values.cluster d.values.label, false⟩]) ∨
        (∃ c0 cs failed, d.state.cert ≠ [] ∧ d.values.cert = some c0 :: cs ∧
          err.isSome = failed ∧ p = false ∧
          new = [⟨.DeleteObjectStorageBucketCert d.values.cluster d.values.label, false⟩,
            ⟨.UploadObjectStorageBucketCert d.values.cluster d.values.label
              ⟨c0.certificate, c0.private_key⟩, failed⟩]) ∨
        (∃ cs, d.state.cert ≠ [] ∧ d.values.cert = none :: cs ∧ err = none ∧ p = true ∧
          new = [⟨.DeleteObjectStorageBucketCert d.values.cluster d.values.label, false⟩]) ∨
        (d.state.cert = [] ∧ d.values.cert = [] ∧ err = none ∧ p = false ∧ new = []) ∨
        (∃ c0 cs failed, d.state.cert = [] ∧ d.values.cert = some c0 :: cs ∧
          err.isSome = failed ∧ p = false ∧
          new = [⟨.UploadObjectStorageBucketCert d.values.cluster d.values.label
              ⟨c0.certificate, c0.private_key⟩, failed⟩]) ∨
        (∃ cs, d.state.cert = [] ∧ d.values.cert = none :: cs ∧ err = none ∧ p = true ∧
          new = [])) := by
  unfold updateLinodeObjectStorageBucketCert
  simp only
  cases hold : d.state.cert with
  | nil =>
    cases hnew : d.values.cert with
    | nil => exact ⟨none, [], false, by simp, by simp [answersRecorded], by simp⟩
    | cons v cs =>
      cases v with
      | none =>
        exact ⟨none, [], true, by simp [expandLinodeObjectStorageBucketCert],
          by simp [answersRecorded], by simp⟩
      | some c0 =>
        cases hu : client.UploadObjectStorageBucketCert log d.values.cluster d.values.label
            ⟨c0.certificate, c0.private_key⟩ with
        | none =>
          exact ⟨none, [⟨.UploadObjectStorageBucketCert d.values.cluster d.values.label
            ⟨c0.certificate, c0.private_key⟩, false⟩], false,
            by simp [expandLinodeObjectStorageBucketCert, hu],
            by simp [answersRecorded, Client.fails, hu], by simp⟩
        | some e =>
          exact ⟨some ("failed to upload new bucket cert: " ++ e),
            [⟨.UploadObjectStorageBucketCert d.values.cluster d.values.label
              ⟨c0.certificate, c0.private_key⟩, true⟩], false,
            by simp [expandLinodeObjectStorageBucketCert, hu],
            by simp [answersRecorded, Client.fails, hu], by simp⟩
  | cons o os =>
    cases hd : client.DeleteObjectStorageBucketCert log d.values.cluster d.values.label with
    | some e =>
      exact ⟨some ("failed to delete old bucket cert: " ++ e),
        [⟨.DeleteObjectStorageBucketCert d.values.cluster d.values.label, true⟩], false,
        by simp [hd], by simp [answersRecorded, Client.fails, hd], by simp⟩
    | none =>
      cases hnew : d.values.cert with
      | nil =>
        exact ⟨none, [⟨.DeleteObjectStorageBucketCert d.values.cluster d.values.label, false⟩],
          false, by simp [hd], by simp [answersRecorded, Client.fails, hd], by simp⟩
      | cons v cs =>
        cases v with
        | none =>
          exact ⟨none,
            [⟨.DeleteObjectStorageBucketCert d.values.cluster d.values.label, false⟩], true,
            by simp [hd, expandLinodeObjectStorageBucketCert],
            by simp [answersRecorded, Client.fails, hd], by simp⟩
        | some c0 =>
          cases hu : client.UploadObjectStorageBucketCert
              (log ++ [⟨.DeleteObjectStorageBucketCert d.values.cluster d.values.label, false⟩])
              d.values.cluster d.values.label ⟨c0.certificate, c0.private_key⟩ with
          | none =>
            exact ⟨none,
              [⟨.DeleteObjectStorageBucketCert d.values.cluster d.values.label, false⟩,
               ⟨.UploadObjectStorageBucketCert d.values.cluster d.values.label
                ⟨c0.certificate, c0.private_key⟩, false⟩], false,
              by simp [hd, hu, expandLinodeObjectStorageBucketCert],
              by simp [answersRecorded, Client.fails, hd, hu], by simp⟩
          | some e =>
            exact ⟨some ("failed to upload new bucket cert: " ++ e),
              [⟨.DeleteObjectStorageBucketCert d.values.cluster d.values.label, false⟩,
               ⟨.UploadObjectStorageBucketCert d.values.cluster d.values.label
                ⟨c0.certificate, c0.private_key⟩, true⟩], false,
              by simp [hd, hu, expandLinodeObjectStorageBucketCert],
              by simp [answersRecorded, Client.fails, hd, hu], by simp⟩

/-- The shapes of a read: nothing when the id does not parse, else the bucket
fetch, then the access fetch, stopping at the first failure. A read never
panics, and the flags of its events are the answers of the gateway. -/
theorem read_cases (client : Client) (d : ResourceData) (log : Log) :
    ∃ new : List Event,
      (resourceLinodeObjectStorageBucketRead client d log).log = log ++ new ∧
      (resourceLinodeObjectStorageBucketRead client d log).panicked = false ∧
      answersRecorded client log new = true ∧
      (((resourceLinodeObjectStorageBucketRead client d log).err.isSome = true ∧ new = [] ∧
          ∀ c l, decodeLinodeObjectStorageBucketID d.id ≠ .ok (c, l)) ∨
        ∃ c l, decodeLinodeObjectStorageBucketID d.id = .ok (c, l) ∧
          (((resourceLinodeObjectStorageBucketRead client d log).err.isSome = true ∧
              new = [⟨.GetObjectStorageBucket c l, true⟩]) ∨
            ∃ failed, (resourceLinodeObjectStorageBucketRead client d log).err.isSome = failed ∧
              new = [⟨.GetObjectStorageBucket c l, false⟩,
                ⟨.GetObjectStorageBucketAccess c l, failed⟩])) := by
  unfold resourceLinodeObjectStorageBucketRead
  cases hdec : decodeLinodeObjectStorageBucketID d.id with
  | error e => exact ⟨[], by simp, by simp, by simp [answersRecorded], Or.inl (by simp)⟩
  | ok p =>
    obtain ⟨c, l⟩ := p
    cases hb : client.GetObjectStorageBucket log c l with
    | error e =>
      exact ⟨[⟨.GetObjectStorageBucket c l, true⟩], by simp [hb], by simp [hb],
        by simp [answersRecorded, Client.fails, hb],
        Or.inr ⟨c, l, rfl, Or.inl (by simp [hb])⟩⟩
    | ok bucket =>
      cases ha : client.GetObjectStorageBucketAccess
          (log ++ [⟨.GetObjectStorageBucket c l, false⟩]) c l with
      | error e =>
        exact ⟨[⟨.GetObjectStorageBucket c l, false⟩, ⟨.GetObjectStorageBucketAccess c l, true⟩],
          by simp [hb, ha], by simp [hb, ha], by simp [answersRecorded, Client.fails, hb, ha],
          Or.inr ⟨c, l, rfl, Or.inr ⟨true, by simp [hb, ha], rfl⟩⟩⟩
      | ok access =>
        exact ⟨[⟨.GetObjectStorageBucket c l, false⟩, ⟨.GetObjectStorageBucketAccess c l, false⟩],
          by simp [hb, ha], by simp [hb, ha], by simp [answersRecorded, Client.fails, hb, ha],
          Or.inr ⟨c, l, rfl, Or.inr ⟨false, by simp [hb, ha], rfl⟩⟩⟩

/-- A read adds only fetches to the log, whatever was issued before it. -/
theorem read_issued (client : Client) (d : ResourceData) (log extra : Log) :
    ∃ R : List Event,
      issued log (resourceLinodeObjectStorageBucketRead client d (log ++ extra)).log =
        extra ++ R ∧
      (resourceLinodeObjectStorageBucketRead client d (log ++ extra)).log = log ++ (extra ++ R) ∧
      (resourceLinodeObjectStorageBucketRead client d (log ++ extra)).panicked = false ∧
      answersRecorded client (log ++ extra) R = true ∧
      (((resourceLinodeObjectStorageBucketRead client d (log ++ extra)).err.isSome = true ∧
          R = []) ∨
        ∃ c l, decodeLinodeObjectStorageBucketID d.id = .ok (c, l) ∧
          (((resourceLinodeObjectStorageBucketRead client d (log ++ extra)).err.isSome = true ∧
              R = [⟨.GetObjectStorageBucket c l, true⟩]) ∨
            ∃ failed,
              (resourceLinodeObjectStorageBucketRead client d (log ++ extra)).err.isSome = failed ∧
              R = [⟨.GetObjectStorageBucket c l, false⟩,
                ⟨.GetObjectStorageBucketAccess c l, failed⟩])) := by
  obtain ⟨R, hR, hp, hrec, hshape⟩ := read_cases client d (log ++ extra)
  refine ⟨R, ?_, ?_, hp, hrec, ?_⟩
  · rw [hR, List.append_assoc, issued_append]
  · rw [hR, List.append_assoc]
  · rcases hshape with ⟨herr, hnil, _⟩ | h
    · exact Or.inl ⟨herr, hnil⟩
    · exact Or.inr h

/-! ## Certificate rotation -/

/-- The rotation order on certificates received as maps: when every gateway
call succeeds, `updateLinodeObjectStorageBucketCert` issues exactly
`[DeleteCertificate, UploadCertificate]` in that order when the previous state
has a certificate and the desired one is another map, exactly
`[UploadCertificate]` when the previous state has none and the desired one is
a map, and exactly `[DeleteCertificate]` when the previous state has one and
the desired one has none; it returns no error and does not panic. -/
theorem updateCert_rotation_ordering_on_maps (client : Client) (d : ResourceData) (log : Log)
    (old : Option CertSpec) (new : CertSpec)
    (hdel : ∀ lg c l, client.DeleteObjectStorageBucketCert lg c l = none)
    (hup : ∀ lg c l o, client.UploadObjectStorageBucketCert lg c l o = none) :
    (d.state.cert = [old] → d.values.cert = [some new] →
      updateLinodeObjectStorageBucketCert d client log =
        ⟨none, log ++
          [⟨.DeleteObjectStorageBucketCert d.values.cluster d.values.label, false⟩,
           ⟨.UploadObjectStorageBucketCert d.values.cluster d.values.label
              ⟨new.certificate, new.private_key⟩, false⟩], false⟩) ∧
    (d.state.cert = [] → d.values.cert = [some new] →
      updateLinodeObjectStorageBucketCert d client log =
        ⟨none, log ++
          [⟨.UploadObjectStorageBucketCert d.values.cluster d.values.label
              ⟨new.certificate, new.private_key⟩, false⟩], false⟩) ∧
    (d.state.cert = [old] → d.values.cert = [] →
      updateLinodeObjectStorageBucketCert d client log =
        ⟨none, log ++
          [⟨.DeleteObjectStorageBucketCert d.values.cluster d.values.label, false⟩], false⟩) := by
  refine ⟨?_, ?_, ?_⟩
  · intro ho hn
    simp [updateLinodeObjectStorageBucketCert, ho, hn, hdel, hup,
      expandLinodeObjectStorageBucketCert]
  · intro ho hn
    simp [updateLinodeObjectStorageBucketCert, ho, hn, hup,
      expandLinodeObjectStorageBucketCert]
  · intro ho hn
    simp [updateLinodeObjectStorageBucketCert, ho, hn, hdel]

/-- C3 at the input where the code departs from it. The desired `cert` block
has two empty strings, so the new list holds one nil element, and every
gateway call succeeds. With no previous certificate
`updateLinodeObjectStorageBucketCert` panics before any call, where the claim
has `[UploadCertificate]`; with the previous certificate `certA` it issues the
deletion and panics, where the claim has `[DeleteCertificate,
UploadCertificate]`. -/
theorem updateCert_nil_element_panics :
    updateLinodeObjectStorageBucketCert
        (sampleData ("private", true, []) ("private", true, [none])) okClient [] =
      ⟨none, [], true⟩ ∧
    updateLinodeObjectStorageBucketCert
        (sampleData ("private", true, [some certA]) ("private", true, [none])) okClient [] =
      ⟨none, [⟨.DeleteObjectStorageBucketCert "us-east" "b1", false⟩], true⟩ := by
  refine ⟨by decide, by decide⟩

/-! ## No-op update -/

/-- C5. No-op idempotence: when acl, cors_enabled and cert have no change,
`resourceLinodeObjectStorageBucketUpdate` is exactly the trailing read: it
issues no mutating call, the calls it issues are an initial part of
`[GetBucket, GetAccessPolicy]` on the decoded identity, and they are exactly
these two fetches whenever the update returns without error; it does not
panic. -/
theorem update_noop_only_reads (client : Client) (d : ResourceData) (log : Log)
    (hacl : d.state.acl = d.values.acl)
    (hcors : d.state.cors_enabled = d.values.cors_enabled)
    (hcert : d.state.cert = d.values.cert) :
    resourceLinodeObjectStorageBucketUpdate client d log =
        resourceLinodeObjectStorageBucketRead client d log ∧
      (resourceLinodeObjectStorageBucketUpdate client d log).log =
        log ++ issued log (resourceLinodeObjectStorageBucketUpdate client d log).log ∧
      mutatingCalls (issued log (resourceLinodeObjectStorageBucketUpdate client d log).log) = [] ∧
      (∀ c l, decodeLinodeObjectStorageBucketID d.id = .ok (c, l) →
        calls (issued log (resourceLinodeObjectStorageBucketUpdate client d log).log) <+:
          [.GetObjectStorageBucket c l, .GetObjectStorageBucketAccess c l]) ∧
      ((resourceLinodeObjectStorageBucketUpdate client d log).err = none →
        ∃ c l, decodeLinodeObjectStorageBucketID d.id = .ok (c, l) ∧
          issued log (resourceLinodeObjectStorageBucketUpdate client d log).log =
            [⟨.GetObjectStorageBucket c l, false⟩, ⟨.GetObjectStorageBucketAccess c l, false⟩]) ∧
      (resourceLinodeObjectStorageBucketUpdate client d log).panicked = false := by
  have hupd : resourceLinodeObjectStorageBucketUpdate client d log =
      resourceLinodeObjectStorageBucketRead client d log := by
    simp [resourceLinodeObjectStorageBucketUpdate, ResourceData.HasChanges,
      ResourceData.HasChange, hacl, hcors, hcert]
  rw [hupd]
  refine ⟨rfl, ?_⟩
  obtain ⟨R, hR, hp, -, hshape⟩ := read_cases client d log
  rw [hR, issued_append]
  refine ⟨rfl, ?_⟩
  rcases hshape with ⟨herr, rfl, hdec⟩ | ⟨c, l, hdec, ⟨herr, rfl⟩ | ⟨failed, herr, rfl⟩⟩
  · refine ⟨rfl, ?_, ?_, hp⟩
    · intro c l _
      simp [calls]
    · intro hnone
      simp [hnone] at herr
  · refine ⟨rfl, ?_, ?_, hp⟩
    · intro c2 l2 h2
      rw [hdec] at h2
      simp only [Except.ok.injEq, Prod.mk.injEq] at h2
      obtain ⟨rfl, rfl⟩ := h2
      exact ⟨[.GetObjectStorageBucketAccess c l], rfl⟩
    · intro hnone
      simp [hnone] at herr
  · refine ⟨rfl, ?_, ?_, hp⟩
    · intro c2 l2 h2
      rw [hdec] at h2
      simp only [Except.ok.injEq, Prod.mk.injEq] at h2
      obtain ⟨rfl, rfl⟩ := h2
      exact ⟨[], rfl⟩
    · intro hnone
      simp [hnone] at herr
      subst herr
      exact ⟨c, l, hdec, rfl⟩

theorem update_noop_only_reads_witness :
    resourceLinodeObjectStorageBucketUpdate okClient
        (sampleData ("private", true, [some certA]) ("private", true, [some certA])) [] =
      resourceLinodeObjectStorageBucketRead okClient
        (sampleData ("private", true, [some certA]) ("private", true, [some certA])) [] ∧
    mutatingCalls (issued [] (resourceLinodeObjectStorageBucketUpdate okClient
        (sampleData ("private", true, [some certA]) ("private", true, [some certA])) []).log) =
      [] :=
  have h := update_noop_only_reads okClient
    (sampleData ("private", true, [some certA]) ("private", true, [some certA])) [] rfl rfl rfl
  ⟨h.1, h.2.2.1⟩

/-! ## Field isolation -/

/-- Field isolation away from the nil element: when only the certificate
differs between previous and desired (acl and cors_enabled equal), the calls
of `resourceLinodeObjectStorageBucketUpdate` never hold `UpdateAccessPolicy`,
and they hold a certificate operation unless the previous state has no
certificate and the desired list starts with a nil element; when acl differs
and the certificate does not, they hold `UpdateAccessPolicy` and no
certificate operation. -/
theorem update_field_isolation_on_maps (client : Client) (d : ResourceData) (log : Log) :
    (d.state.acl = d.values.acl → d.state.cors_enabled = d.values.cors_enabled →
      d.state.cert ≠ d.values.cert →
        ((¬ (d.state.cert = [] ∧ ∃ cs, d.values.cert = none :: cs)) →
          ∃ e ∈ issued log (resourceLinodeObjectStorageBucketUpdate client d log).log,
            e.call.isCertOp = true) ∧
        (∀ e ∈ issued log (resourceLinodeObjectStorageBucketUpdate client d log).log,
          e.call.isUpdateAccess = false)) ∧
    (d.state.acl ≠ d.values.acl → d.state.cert = d.values.cert →
        (∃ e ∈ issued log (resourceLinodeObjectStorageBucketUpdate client d log).log,
          e.call.isUpdateAccess = true) ∧
        (∀ e ∈ issued log (resourceLinodeObjectStorageBucketUpdate client d log).log,
          e.call.isCertOp = false)) := by
  constructor
  · intro hacl hcors hcert
    have hupd : resourceLinodeObjectStorageBucketUpdate client d log =
        afterCert client d (updateLinodeObjectStorageBucketCert d client log) := by
      simp [resourceLinodeObjectStorageBucketUpdate, ResourceData.HasChanges,
        ResourceData.HasChange, hacl, hcors, hcert]
    rw [hupd]
    obtain ⟨err, C, p, hC, -, hshape⟩ := cert_cases d client log
    rw [hC]
    have hne : ¬ (d.state.cert = [] ∧ d.values.cert = []) := fun h => hcert (h.1.trans h.2.symm)
    cases p with
    | true =>
      rcases hshape with ⟨_, _, h, _⟩ | ⟨_, _, _, h, _⟩ | ⟨c0, cs, f, _, _, _, h, _⟩ |
        ⟨cs, _, _, _, _, rfl⟩ | ⟨_, _, _, h, _⟩ | ⟨c0, cs, f, _, _, _, h, _⟩ |
        ⟨cs, h1, h2, _, _, rfl⟩
      · exact absurd h (by simp)
      · exact absurd h (by simp)
      · exact absurd h (by simp)
      · simp [afterCert, Call.isCertOp, Call.isUpdateAccess]
      · exact absurd h (by simp)
      · exact absurd h (by simp)
      · refine ⟨fun hnn => absurd ⟨h1, cs, h2⟩ hnn, ?_⟩
        simp [afterCert]
    | false =>
      cases err with
      | some e =>
        rcases hshape with ⟨_, _, _, rfl⟩ | ⟨_, _, h, _⟩ | ⟨c0, cs, f, _, _, _, _, rfl⟩ |
          ⟨cs, _, _, _, h, _⟩ | ⟨_, _, h, _⟩ | ⟨c0, cs, f, _, _, _, _, rfl⟩ |
          ⟨cs, _, _, _, h, _⟩
        · simp [afterCert, Call.isCertOp, Call.isUpdateAccess]
        · exact absurd h (by simp)
        · simp [afterCert, Call.isCertOp, Call.isUpdateAccess]
        · exact absurd h (by simp)
        · exact absurd h (by simp)
        · simp [afterCert, Call.isCertOp, Call.isUpdateAccess]
        · exact absurd h (by simp)
      | none =>
        obtain ⟨R, hR, -, -, -, hrs⟩ := read_issued client d log C
        simp only [afterCert, Bool.false_eq_true, if_false, hR]
        rcases hshape with ⟨_, h, _⟩ | ⟨_, _, _, _, rfl⟩ | ⟨c0, cs, f, _, _, _, _, rfl⟩ |
          ⟨cs, _, _, _, h, _⟩ | ⟨h1, h2, _, _⟩ | ⟨c0, cs, f, _, _, _, _, rfl⟩ |
          ⟨cs, _, _, _, h, _⟩
        · exact absurd h (by simp)
        · rcases hrs with ⟨_, rfl⟩ | ⟨c, l, _, ⟨_, rfl⟩ | ⟨g, _, rfl⟩⟩ <;>
            simp [Call.isCertOp, Call.isUpdateAccess]
        · rcases hrs with ⟨_, rfl⟩ | ⟨c, l, _, ⟨_, rfl⟩ | ⟨g, _, rfl⟩⟩ <;>
            simp [Call.isCertOp, Call.isUpdateAccess]
        · exact absurd h (by simp)
        · exact absurd ⟨h1, h2⟩ hne
        · rcases hrs with ⟨_, rfl⟩ | ⟨c, l, _, ⟨_, rfl⟩ | ⟨g, _, rfl⟩⟩ <;>
            simp [Call.isCertOp, Call.isUpdateAccess]
        · exact absurd h (by simp)
  · intro hacl hcert
    have hchg : d.HasChanges [.acl, .cors_enabled] = true := by
      simp [ResourceData.HasChanges, ResourceData.HasChange, hacl]
    have hupd : resourceLinodeObjectStorageBucketUpdate client d log =
        (match updateLinodeObjectStorageBucketAccess d client log with
          | (some err, loga) => ⟨some err, d, loga, false⟩
          | (none, loga) => resourceLinodeObjectStorageBucketRead client d loga) := by
      simp [resourceLinodeObjectStorageBucketUpdate, hchg, ResourceData.HasChange, hcert]
    rw [hupd, access_eq]
    cases hcl : client.UpdateObjectStorageBucketAccess log d.values.cluster d.values.label
        (changedAccessOptions d) with
    | none =>
      simp only
      obtain ⟨R, hR, -, -, -, hrs⟩ := read_issued client d log
        [⟨.UpdateObjectStorageBucketAccess d.values.cluster d.values.label
          (changedAccessOptions d), false⟩]
      simp only [hR]
      rcases hrs with ⟨_, rfl⟩ | ⟨c, l, _, ⟨_, rfl⟩ | ⟨g, _, rfl⟩⟩ <;>
        simp [Call.isCertOp, Call.isUpdateAccess]
    | some e =>
      simp [Call.isCertOp, Call.isUpdateAccess]

/-- C4 at the input where the code departs from it. Only the certificate
differs: no previous certificate, and a desired `cert` block with two empty
strings, which the code receives as one nil element; every gateway call
succeeds. `resourceLinodeObjectStorageBucketUpdate` panics before any gateway
call, so its calls hold no certificate operation, where the claim has one. -/
theorem update_cert_only_nil_element_panics :
    (sampleData ("private", true, []) ("private", true, [none])).state.acl =
      (sampleData ("private", true, []) ("private", true, [none])).values.acl ∧
    (sampleData ("private", true, []) ("private", true, [none])).state.cors_enabled =
      (sampleData ("private", true, []) ("private", true, [none])).values.cors_enabled ∧
    (sampleData ("private", true, []) ("private", true, [none])).state.cert ≠
      (sampleData ("private", true, []) ("private", true, [none])).values.cert ∧
    (resourceLinodeObjectStorageBucketUpdate okClient
        (sampleData ("private", true, []) ("private", true, [none])) []).panicked = true ∧
    issued [] (resourceLinodeObjectStorageBucketUpdate okClient
        (sampleData ("private", true, []) ("private", true, [none])) []).log = [] := by
  refine ⟨by decide, by decide, by decide, by decide, by decide⟩

/-! ## Access-policy update followed by a first certificate -/

/-- C9, as the code has it. When acl changed, cors_enabled did not, the
previous state has no certificate and the desired one is the map
`(pem, key)`, the first call of `resourceLinodeObjectStorageBucketUpdate` is
`UpdateAccessPolicy` carrying the desired acl and no `CorsEnabled`. When that
call succeeds, the pass does not panic and its mutating calls are exactly
`[UpdateAccessPolicy, UploadCertificate]` in that order, the upload carrying
exactly `pem` and `key`; when it fails, it is the only call of the pass. -/
theorem update_acl_then_upload (client : Client) (d : ResourceData) (log : Log)
    (pem key : String)
    (hacl : d.state.acl ≠ d.values.acl)
    (hcors : d.state.cors_enabled = d.values.cors_enabled)
    (hold : d.state.cert = []) (hnew : d.values.cert = [some ⟨pem, key⟩]) :
    (∃ failed rest,
      issued log (resourceLinodeObjectStorageBucketUpdate client d log).log =
        ⟨.UpdateObjectStorageBucketAccess d.values.cluster d.values.label
          { ACL := d.values.acl, CorsEnabled := none }, failed⟩ :: rest) ∧
    (client.UpdateObjectStorageBucketAccess log d.values.cluster d.values.label
        { ACL := d.values.acl, CorsEnabled := none } = none →
      (resourceLinodeObjectStorageBucketUpdate client d log).panicked = false ∧
      mutatingCalls (issued log (resourceLinodeObjectStorageBucketUpdate client d log).log) =
        [.UpdateObjectStorageBucketAccess d.values.cluster d.values.label
            { ACL := d.values.acl, CorsEnabled := none },
         .UploadObjectStorageBucketCert d.values.cluster d.values.label
            { Certificate := pem, PrivateKey := key }]) ∧
    (∀ e, client.UpdateObjectStorageBucketAccess log d.values.cluster d.values.label
        { ACL := d.values.acl, CorsEnabled := none } = some e →
      issued log (resourceLinodeObjectStorageBucketUpdate client d log).log =
        [⟨.UpdateObjectStorageBucketAccess d.values.cluster d.values.label
          { ACL := d.values.acl, CorsEnabled := none }, true⟩]) := by
  have hchg : d.HasChanges [.acl, .cors_enabled] = true := by
    simp [ResourceData.HasChanges, ResourceData.HasChange, hacl]
  have hcert : d.HasChange .cert = true := by
    simp [ResourceData.HasChange, hold, hnew]
  have hopts : changedAccessOptions d = { ACL := d.values.acl, CorsEnabled := none } := by
    simp [changedAccessOptions, ResourceData.HasChange, hacl, hcors]
  have hupd : resourceLinodeObjectStorageBucketUpdate client d log =
      (match updateLinodeObjectStorageBucketAccess d client log with
        | (some err, loga) => ⟨some err, d, loga, false⟩
        | (none, loga) =>
          afterCert client d (updateLinodeObjectStorageBucketCert d client loga)) := by
    simp [resourceLinodeObjectStorageBucketUpdate, hchg, hcert]
  rw [hupd, access_eq, hopts]
  cases hcl : client.UpdateObjectStorageBucketAccess log d.values.cluster d.values.label
      { ACL := d.values.acl, CorsEnabled := none } with
  | none =>
    simp only
    obtain ⟨ec, C, p, hC, -, hshape⟩ := cert_cases d client
      (log ++ [⟨.UpdateObjectStorageBucketAccess d.values.cluster d.values.label
        { ACL := d.values.acl, CorsEnabled := none }, false⟩])
    rw [hC]
    rcases hshape with ⟨h, _⟩ | ⟨h, _⟩ | ⟨_, _, _, h, _⟩ | ⟨_, h, _⟩ | ⟨_, h, _⟩ |
      ⟨c0, cs, f, _, hc0, hf, rfl, rfl⟩ | ⟨cs, _, h, _⟩
    · exact absurd hold h
    · exact absurd hold h
    · exact absurd hold h
    · exact absurd hold h
    · simp [hnew] at h
    · rw [hnew] at hc0
      simp only [List.cons.injEq, Option.some.injEq] at hc0
      obtain ⟨rfl, -⟩ := hc0
      cases ec with
      | some e =>
        simp [afterCert, List.append_assoc, mutatingCalls, calls, Call.isMutating]
      | none =>
        simp only [afterCert, Bool.false_eq_true, if_false, List.append_assoc]
        obtain ⟨R, hR, -, hp, -, hrs⟩ := read_issued client d log
          ([⟨.UpdateObjectStorageBucketAccess d.values.cluster d.values.label
            { ACL := d.values.acl, CorsEnabled := none }, false⟩] ++
           [⟨.UploadObjectStorageBucketCert d.values.cluster d.values.label
            ⟨pem, key⟩, f⟩])
        rw [hR, hp]
        rcases hrs with ⟨_, rfl⟩ | ⟨c, l, _, ⟨_, rfl⟩ | ⟨g, _, rfl⟩⟩ <;>
          simp [mutatingCalls, calls, Call.isMutating]
    · simp [hnew] at h
  | some e =>
    simp

theorem update_acl_then_upload_witness :
    mutatingCalls (issued [] (resourceLinodeObjectStorageBucketUpdate okClient
        (sampleData ("private", true, []) ("public-read", true, [some certA])) []).log) =
      [.UpdateObjectStorageBucketAccess "us-east" "b1" { ACL := "public-read", CorsEnabled := none },
       .UploadObjectStorageBucketCert "us-east" "b1" { Certificate := "PEM_A", PrivateKey := "KEY_A" }] :=
  ((update_acl_then_upload okClient
    (sampleData ("private", true, []) ("public-read", true, [some certA])) [] "PEM_A" "KEY_A"
    (by decide) rfl rfl rfl).2.1 rfl).2

/-- C9 fails as stated: in the scenario of the claim (acl changed from
`private` to `public-read`, cors_enabled unchanged, no previous certificate,
desired certificate `(PEM_A, KEY_A)`), on a gateway whose access-policy update
fails, the only mutating call is `UpdateAccessPolicy`: no `UploadCertificate`
is issued. -/
theorem update_acl_fails_no_upload :
    (sampleData ("private", true, []) ("public-read", true, [some certA])).state.acl ≠
      (sampleData ("private", true, []) ("public-read", true, [some certA])).values.acl ∧
    (sampleData ("private", true, []) ("public-read", true, [some certA])).state.cors_enabled =
      (sampleData ("private", true, []) ("public-read", true, [some certA])).values.cors_enabled ∧
    (sampleData ("private", true, []) ("public-read", true, [some certA])).state.cert = [] ∧
    (sampleData ("private", true, []) ("public-read", true, [some certA])).values.cert =
      [some ⟨"PEM_A", "KEY_A"⟩] ∧
    mutatingCalls (issued [] (resourceLinodeObjectStorageBucketUpdate accessUpdateFailsClient
        (sampleData ("private", true, []) ("public-read", true, [some certA])) []).log) =
      [.UpdateObjectStorageBucketAccess "us-east" "b1"
        { ACL := "public-read", CorsEnabled := none }] ∧
    mutatingCalls (issued [] (resourceLinodeObjectStorageBucketUpdate accessUpdateFailsClient
        (sampleData ("private", true, []) ("public-read", true, [some certA])) []).log) ≠
      [.UpdateObjectStorageBucketAccess "us-east" "b1"
        { ACL := "public-read", CorsEnabled := none },
       .UploadObjectStorageBucketCert "us-east" "b1"
        { Certificate := "PEM_A", PrivateKey := "KEY_A" }] := by
  refine ⟨by decide, by decide, by decide, by decide, by decide, by decide⟩

/-! ## Create -/

/-- The calls of a Create pass: `CreateBucket` with the desired attributes
comes first and, when it fails, alone; the certificate step follows it. -/
theorem create_cases (client : Client) (d : ResourceData) (log : Log) :
    (∃ failed rest,
      issued log (resourceLinodeObjectStorageBucketCreate client d log).log =
        ⟨.CreateObjectStorageBucket
          { Cluster := d.values.cluster, Label := d.values.label, ACL := d.values.acl,
            CorsEnabled := some d.values.cors_enabled }, failed⟩ :: rest ∧
      failed = client.fails log (.CreateObjectStorageBucket
          { Cluster := d.values.cluster, Label := d.values.label, ACL := d.values.acl,
            CorsEnabled := some d.values.cors_enabled }) ∧
      (failed = true → rest = [])) ∧
    (d.values.cert = [] →
      mutatingCalls (issued log (resourceLinodeObjectStorageBucketCreate client d log).log) =
        [.CreateObjectStorageBucket
          { Cluster := d.values.cluster, Label := d.values.label, ACL := d.values.acl,
            CorsEnabled := some d.values.cors_enabled }] ∧
      (resourceLinodeObjectStorageBucketCreate client d log).panicked = false) ∧
    (∀ c0 cs, d.values.cert = some c0 :: cs →
      client.fails log (.CreateObjectStorageBucket
          { Cluster := d.values.cluster, Label := d.values.label, ACL := d.values.acl,
            CorsEnabled := some d.values.cors_enabled }) = false →
        mutatingCalls (issued log (resourceLinodeObjectStorageBucketCreate client d log).log) =
          [.CreateObjectStorageBucket
            { Cluster := d.values.cluster, Label := d.values.label, ACL := d.values.acl,
              CorsEnabled := some d.values.cors_enabled },
           .UploadObjectStorageBucketCert d.values.cluster d.values.label
            { Certificate := c0.certificate, PrivateKey := c0.private_key }] ∧
        (resourceLinodeObjectStorageBucketCreate client d log).panicked = false) ∧
    (∀ cs, d.values.cert = none :: cs →
      client.fails log (.CreateObjectStorageBucket
          { Cluster := d.values.cluster, Label := d.values.label, ACL := d.values.acl,
            CorsEnabled := some d.values.cors_enabled }) = false →
        issued log (resourceLinodeObjectStorageBucketCreate client d log).log =
          [⟨.CreateObjectStorageBucket
            { Cluster := d.values.cluster, Label := d.values.label, ACL := d.values.acl,
              CorsEnabled := some d.values.cors_enabled }, false⟩] ∧
        (resourceLinodeObjectStorageBucketCreate client d log).panicked = true) := by
  unfold resourceLinodeObjectStorageBucketCreate
  simp only
  cases hcr : client.CreateObjectStorageBucket log
      { Cluster := d.values.cluster, Label := d.values.label, ACL := d.values.acl,
        CorsEnabled := some d.values.cors_enabled } with
  | error e =>
    simp [mutatingCalls, calls, Call.isMutating, Client.fails, hcr]
  | ok bucket =>
    simp only
    cases hcert : d.values.cert with
    | nil =>
      simp only
      obtain ⟨R, hR, -, hp, -, hrs⟩ := read_issued client
        { id := (d.SetId (sprintfID bucket.Cluster bucket.Label)).id,
          state := (d.SetId (sprintfID bucket.Cluster bucket.Label)).state,
          values :=
            { cluster := bucket.Cluster, label := bucket.Label, acl := d.values.acl,
              cors_enabled := d.values.cors_enabled,
              cert := (d.SetId (sprintfID bucket.Cluster bucket.Label)).values.cert } }
        log
        [⟨.CreateObjectStorageBucket
          { Cluster := d.values.cluster, Label := d.values.label, ACL := d.values.acl,
            CorsEnabled := some d.values.cors_enabled }, false⟩]
      rw [hR, hp]
      rcases hrs with ⟨_, rfl⟩ | ⟨c, l, _, ⟨_, rfl⟩ | ⟨g, _, rfl⟩⟩ <;>
        simp [mutatingCalls, calls, Call.isMutating, Client.fails, hcr]
    | cons v cs =>
      cases v with
      | none =>
        simp [expandLinodeObjectStorageBucketCert, Client.fails, hcr]
      | some c0 =>
        simp only [expandLinodeObjectStorageBucketCert]
        cases hup : client.UploadObjectStorageBucketCert
            (log ++ [⟨.CreateObjectStorageBucket
              { Cluster := d.values.cluster, Label := d.values.label, ACL := d.values.acl,
                CorsEnabled := some d.values.cors_enabled }, false⟩])
            d.values.cluster d.values.label ⟨c0.certificate, c0.private_key⟩ with
        | some e =>
          simp [mutatingCalls, calls, Call.isMutating, Client.fails, hcr]
        | none =>
          simp only
          obtain ⟨R, hR, -, hp, -, hrs⟩ := read_issued client
            { id := (d.SetId (sprintfID bucket.Cluster bucket.Label)).id,
              state := (d.SetId (sprintfID bucket.Cluster bucket.Label)).state,
              values :=
                { cluster := bucket.Cluster, label := bucket.Label, acl := d.values.acl,
                  cors_enabled := d.values.cors_enabled,
                  cert := (d.SetId (sprintfID bucket.Cluster bucket.Label)).values.cert } }
            log
            ([⟨.CreateObjectStorageBucket
              { Cluster := d.values.cluster, Label := d.values.label, ACL := d.values.acl,
                CorsEnabled := some d.values.cors_enabled }, false⟩] ++
             [⟨.UploadObjectStorageBucketCert d.values.cluster d.values.label
                ⟨c0.certificate, c0.private_key⟩, false⟩])
          simp only [List.append_assoc] at hR hp ⊢
          rw [hR, hp]
          rcases hrs with ⟨_, rfl⟩ | ⟨c, l, _, ⟨_, rfl⟩ | ⟨g, _, rfl⟩⟩ <;>
            simp [mutatingCalls, calls, Call.isMutating, Client.fails, hcr]

/-- C10. Create scenario: `resourceLinodeObjectStorageBucketCreate` always
issues `CreateBucket`, carrying the desired cluster, label, acl and
cors_enabled, as its first call, and nothing after it when it failed. With no
certificate it is the only mutating call (no `UpdateAccessPolicy`, no
`UploadCertificate` follows). Every `UploadCertificate` of the pass comes
strictly after a successful `CreateBucket`; with a certificate received as a
map and a successful `CreateBucket`, the mutating calls are exactly
`[CreateBucket, UploadCertificate]` in that order. (With a nil first element
the pass panics right after the successful `CreateBucket`.) -/
theorem create_calls (client : Client) (d : ResourceData) (log : Log) :
    (∃ failed rest,
      issued log (resourceLinodeObjectStorageBucketCreate client d log).log =
        ⟨.CreateObjectStorageBucket
          { Cluster := d.values.cluster, Label := d.values.label, ACL := d.values.acl,
            CorsEnabled := some d.values.cors_enabled }, failed⟩ :: rest ∧
      failed = client.fails log (.CreateObjectStorageBucket
          { Cluster := d.values.cluster, Label := d.values.label, ACL := d.values.acl,
            CorsEnabled := some d.values.cors_enabled }) ∧
      (failed = true → rest = [])) ∧
    (d.values.cert = [] →
      mutatingCalls (issued log (resourceLinodeObjectStorageBucketCreate client d log).log) =
        [.CreateObjectStorageBucket
          { Cluster := d.values.cluster, Label := d.values.label, ACL := d.values.acl,
            CorsEnabled := some d.values.cors_enabled }] ∧
      (resourceLinodeObjectStorageBucketCreate client d log).panicked = false) ∧
    (∀ e ∈ issued log (resourceLinodeObjectStorageBucketCreate client d log).log,
      ∀ c l o, e.call = .UploadObjectStorageBucketCert c l o →
        ∃ rest,
          issued log (resourceLinodeObjectStorageBucketCreate client d log).log =
            ⟨.CreateObjectStorageBucket
              { Cluster := d.values.cluster, Label := d.values.label, ACL := d.values.acl,
                CorsEnabled := some d.values.cors_enabled }, false⟩ :: rest ∧
          e ∈ rest) ∧
    (∀ c0 cs, d.values.cert = some c0 :: cs →
      client.fails log (.CreateObjectStorageBucket
          { Cluster := d.values.cluster, Label := d.values.label, ACL := d.values.acl,
            CorsEnabled := some d.values.cors_enabled }) = false →
        mutatingCalls (issued log (resourceLinodeObjectStorageBucketCreate client d log).log) =
          [.CreateObjectStorageBucket
            { Cluster := d.values.cluster, Label := d.values.label, ACL := d.values.acl,
              CorsEnabled := some d.values.cors_enabled },
           .UploadObjectStorageBucketCert d.values.cluster d.values.label
            { Certificate := c0.certificate, PrivateKey := c0.private_key }] ∧
        (resourceLinodeObjectStorageBucketCreate client d log).panicked = false) ∧
    (∀ cs, d.values.cert = none :: cs →
      client.fails log (.CreateObjectStorageBucket
          { Cluster := d.values.cluster, Label := d.values.label, ACL := d.values.acl,
            CorsEnabled := some d.values.cors_enabled }) = false →
        issued log (resourceLinodeObjectStorageBucketCreate client d log).log =
          [⟨.CreateObjectStorageBucket
            { Cluster := d.values.cluster, Label := d.values.label, ACL := d.values.acl,
              CorsEnabled := some d.values.cors_enabled }, false⟩] ∧
        (resourceLinodeObjectStorageBucketCreate client d log).panicked = true) := by
  obtain ⟨hfirst, hnone, hmap, hnil⟩ := create_cases client d log
  refine ⟨hfirst, hnone, ?_, hmap, hnil⟩
  obtain ⟨failed, rest, hi, -, hrest⟩ := hfirst
  intro e he c l o hcall
  rw [hi] at he ⊢
  rcases List.mem_cons.1 he with rfl | hmem
  · simp at hcall
  · cases failed with
    | false => exact ⟨rest, rfl, hmem⟩
    | true =>
      rw [hrest rfl] at hmem
      simp at hmem

theorem create_calls_witness :
    mutatingCalls (issued [] (resourceLinodeObjectStorageBucketCreate okClient
        (sampleData ("", false, []) ("private", true, [])) []).log) =
      [.CreateObjectStorageBucket
        { Cluster := "us-east", Label := "b1", ACL := "private", CorsEnabled := some true }] ∧
    mutatingCalls (issued [] (resourceLinodeObjectStorageBucketCreate okClient
        (sampleData ("", false, []) ("private", true, [some certA])) []).log) =
      [.CreateObjectStorageBucket
        { Cluster := "us-east", Label := "b1", ACL := "private", CorsEnabled := some true },
       .UploadObjectStorageBucketCert "us-east" "b1"
        { Certificate := "PEM_A", PrivateKey := "KEY_A" }] :=
  ⟨((create_calls okClient (sampleData ("", false, []) ("private", true, [])) []).2.1 rfl).1,
   ((create_calls okClient (sampleData ("", false, []) ("private", true, [some certA])) []).2.2.2.1
      certA [] rfl rfl).1⟩

/-! ## Delete -/

/-- C7, as the code has it. On a well-formed identity token
`resourceLinodeObjectStorageBucketDelete` issues exactly one call,
`DeleteBucket` on the decoded cluster and label, and returns without error
exactly when that call returns without error: every error of the gateway, a
not-found answer included, is returned as an `Error deleting` error. It does
not panic. -/
theorem delete_succeeds_iff_gateway_delete (client : Client) (d : ResourceData) (log : Log)
    (c l : String) (hdec : decodeLinodeObjectStorageBucketID d.id = .ok (c, l)) :
    calls (issued log (resourceLinodeObjectStorageBucketDelete client d log).log) =
        [.DeleteObjectStorageBucket c l] ∧
      ((resourceLinodeObjectStorageBucketDelete client d log).err = none ↔
        client.DeleteObjectStorageBucket log c l = none) ∧
      (∀ e, client.DeleteObjectStorageBucket log c l = some e →
        (resourceLinodeObjectStorageBucketDelete client d log).err =
          some ("Error deleting Linode ObjectStorageBucket " ++ d.id ++ ": " ++ e)) ∧
      (resourceLinodeObjectStorageBucketDelete client d log).panicked = false := by
  unfold resourceLinodeObjectStorageBucketDelete
  rw [hdec]
  simp only
  cases hdel : client.DeleteObjectStorageBucket log c l with
  | none => simp [calls]
  | some e => simp [calls]

theorem delete_succeeds_iff_gateway_delete_witness :
    calls (issued [] (resourceLinodeObjectStorageBucketDelete okClient
        (sampleData ("private", true, []) ("private", true, [])) []).log) =
      [.DeleteObjectStorageBucket "us-east" "b1"] ∧
    (resourceLinodeObjectStorageBucketDelete okClient
        (sampleData ("private", true, []) ("private", true, [])) []).err = none :=
  have h := delete_succeeds_iff_gateway_delete okClient
    (sampleData ("private", true, []) ("private", true, [])) [] "us-east" "b1" rfl
  ⟨h.1, h.2.1.2 rfl⟩

/-- C7 fails as stated: on the well-formed token `us-east:b1`, with a gateway
on which the bucket is absent (the bucket fetch and the bucket deletion both
answer not-found), the delete returns an error. -/
theorem delete_on_absent_returns_error :
    decodeLinodeObjectStorageBucketID
        (sampleData ("private", true, []) ("private", true, [])).id = .ok ("us-east", "b1") ∧
    absentClient.GetObjectStorageBucket [] "us-east" "b1" = .error "[404] Not found" ∧
    (resourceLinodeObjectStorageBucketDelete absentClient
        (sampleData ("private", true, []) ("private", true, [])) []).err =
      some "Error deleting Linode ObjectStorageBucket us-east:b1: [404] Not found" := by
  refine ⟨rfl, rfl, rfl⟩

/-! ## Building the identity token -/

/-- Decoding the token built from a cluster and a label succeeds only when both
are non-empty and free of `':'`, and then gives them back. -/
theorem decode_sprintfID_ok (cluster label a b : String)
    (h : decodeLinodeObjectStorageBucketID (sprintfID cluster label) = .ok (a, b)) :
    a = cluster ∧ b = label ∧ cluster ≠ "" ∧ label ≠ "" ∧
      ':' ∉ cluster.data ∧ ':' ∉ label.data := by
  obtain ⟨hs, ha, hb⟩ := (decode_ok_iff_Split _ a b).1 h
  obtain ⟨hca, hcb, e⟩ := (strings.Split_eq_pair_iff _ a b ':').1 hs
  have e2 : cluster.data ++ ':' :: label.data = a.data ++ ':' :: b.data := by
    have := congrArg String.data e
    simpa [sprintfID] using this
  have hcount := congrArg (List.count ':') e2
  simp only [List.count_append, List.count_cons_self, List.count_eq_zero_of_not_mem hca,
    List.count_eq_zero_of_not_mem hcb] at hcount
  have hc0 : List.count ':' cluster.data = 0 := by omega
  have hl0 : List.count ':' label.data = 0 := by omega
  have hcc : ':' ∉ cluster.data := List.count_eq_zero.1 hc0
  have hcl : ':' ∉ label.data := List.count_eq_zero.1 hl0
  have h1 := strings.splitChars_append_sep ':' cluster.data label.data hcc
  rw [strings.splitChars_of_not_mem ':' _ hcl, e2,
    strings.splitChars_append_sep ':' a.data b.data hca,
    strings.splitChars_of_not_mem ':' _ hcb] at h1
  simp only [List.cons.injEq, and_true] at h1
  have eac : a = cluster := String.ext h1.1
  have ebl : b = label := String.ext h1.2
  subst eac ebl
  exact ⟨rfl, rfl, ha, hb, hcc, hcl⟩

/-- C8, as the code has it. Building the identity token never fails: for every
cluster and label it is `cluster ++ ":" ++ label`. When either field is empty
or contains `':'`, `decodeLinodeObjectStorageBucketID` rejects that token.
Whenever Create reaches `SetId` (`CreateBucket` answered with that cluster and
label, and the `cert` list is empty or starts with a map whose upload
succeeded), it stores that token as the id and returns the parse error of the
trailing read. Whenever Read reaches `SetId` (the id parsed and both fetches
succeeded, `GetBucket` answering with that cluster and label), it stores that
token as the id and returns no error. -/
theorem sprintfID_invalid_built_then_rejected (cluster label : String)
    (hinv : cluster = "" ∨ label = "" ∨ ':' ∈ cluster.data ∨ ':' ∈ label.data) :
    sprintfID cluster label = cluster ++ ":" ++ label ∧
    decodeLinodeObjectStorageBucketID (sprintfID cluster label) = .error
      ("Linode Object Storage Bucket ID must be of the form <Cluster>:<Label>, was provided: "
        ++ sprintfID cluster label) ∧
    (∀ (client : Client) (d : ResourceData) (log : Log),
      client.CreateObjectStorageBucket log
        { Cluster := d.values.cluster, Label := d.values.label, ACL := d.values.acl,
          CorsEnabled := some d.values.cors_enabled } = .ok ⟨cluster, label⟩ →
      (d.values.cert = [] ∨
        ∃ c0 cs, d.values.cert = some c0 :: cs ∧
          client.UploadObjectStorageBucketCert
            (log ++ [⟨.CreateObjectStorageBucket
              { Cluster := d.values.cluster, Label := d.values.label, ACL := d.values.acl,
                CorsEnabled := some d.values.cors_enabled }, false⟩])
            d.values.cluster d.values.label
            { Certificate := c0.certificate, PrivateKey := c0.private_key } = none) →
      (resourceLinodeObjectStorageBucketCreate client d log).d.id = sprintfID cluster label ∧
      (resourceLinodeObjectStorageBucketCreate client d log).err =
        some ("failed to parse Linode ObjectStorageBucket id " ++ sprintfID cluster label) ∧
      (resourceLinodeObjectStorageBucketCreate client d log).panicked = false) ∧
    (∀ (client : Client) (d : ResourceData) (log : Log) (c l : String)
        (access : ObjectStorageBucketAccess),
      decodeLinodeObjectStorageBucketID d.id = .ok (c, l) →
      client.GetObjectStorageBucket log c l = .ok ⟨cluster, label⟩ →
      client.GetObjectStorageBucketAccess
        (log ++ [⟨.GetObjectStorageBucket c l, false⟩]) c l = .ok access →
      (resourceLinodeObjectStorageBucketRead client d log).d.id = sprintfID cluster label ∧
      (resourceLinodeObjectStorageBucketRead client d log).err = none) := by
  have hrej : decodeLinodeObjectStorageBucketID (sprintfID cluster label) = .error
      ("Linode Object Storage Bucket ID must be of the form <Cluster>:<Label>, was provided: "
        ++ sprintfID cluster label) := by
    rcases decode_ok_or_error (sprintfID cluster label) with ⟨a, b, h⟩ | h
    · obtain ⟨-, -, h1, h2, h3, h4⟩ := decode_sprintfID_ok cluster label a b h
      rcases hinv with h' | h' | h' | h'
      · exact absurd h' h1
      · exact absurd h' h2
      · exact absurd h' h3
      · exact absurd h' h4
    · exact h
  refine ⟨rfl, hrej, ?_, ?_⟩
  · intro client d log hcr hcert
    unfold resourceLinodeObjectStorageBucketCreate
    rcases hcert with hcert | ⟨c0, cs, hcert, hup⟩
    · simp only [hcr, hcert]
      unfold resourceLinodeObjectStorageBucketRead
      simp [ResourceData.SetId, hrej]
    · simp only [hcr, hcert, expandLinodeObjectStorageBucketCert, hup]
      unfold resourceLinodeObjectStorageBucketRead
      simp [ResourceData.SetId, hrej]
  · intro client d log c l access hdec hb ha
    unfold resourceLinodeObjectStorageBucketRead
    simp [hdec, hb, ha, ResourceData.SetId]

theorem sprintfID_invalid_built_then_rejected_witness :
    sprintfID "a:b" "c" = "a:b" ++ ":" ++ "c" ∧
    decodeLinodeObjectStorageBucketID (sprintfID "a:b" "c") = .error
      ("Linode Object Storage Bucket ID must be of the form <Cluster>:<Label>, was provided: "
        ++ sprintfID "a:b" "c") ∧
    (resourceLinodeObjectStorageBucketCreate okClient
      { id := "", state := ⟨"", "", "", false, []⟩,
        values := ⟨"a:b", "c", "private", true, [some certA]⟩ } []).d.id = sprintfID "a:b" "c" :=
  have h := sprintfID_invalid_built_then_rejected "a:b" "c" (Or.inr (Or.inr (Or.inl (by decide))))
  ⟨h.1, h.2.1,
    (h.2.2.1 okClient
      { id := "", state := ⟨"", "", "", false, []⟩,
        values := ⟨"a:b", "c", "private", true, [some certA]⟩ } [] rfl
      (Or.inr ⟨certA, [], rfl, rfl⟩)).1⟩

/-- C8 fails as stated: with the cluster `a:b`, which contains the separator,
and the label `c`, Create on a gateway that accepts the bucket builds the
token `a:b:c` and stores it as the id; nothing fails while the token is built
(the error Create returns is the parse error of the read that follows). -/
theorem create_builds_token_for_invalid_identity :
    ':' ∈ "a:b".data ∧
    sprintfID "a:b" "c" = "a:b:c" ∧
    (resourceLinodeObjectStorageBucketCreate okClient
      { id := "", state := ⟨"", "", "", false, []⟩,
        values := ⟨"a:b", "c", "private", true, []⟩ } []).d.id = "a:b:c" ∧
    (resourceLinodeObjectStorageBucketCreate okClient
      { id := "", state := ⟨"", "", "", false, []⟩,
        values := ⟨"a:b", "c", "private", true, []⟩ } []).err =
      some "failed to parse Linode ObjectStorageBucket id a:b:c" := by
  refine ⟨by decide, by decide, by rfl, by rfl⟩

/-! ## Fail-fast update -/

/-- Fail-fast reading of a pass whose access-policy update and certificate
operations all succeeded: at most one access-policy update, certificate
operations (deletion before upload), then the fetches of the read, of which
only the last may fail. -/
theorem failFast_of_shapes (isErr : Bool) (A C R : List Event)
    (hA : A = [] ∨ ∃ c l o, A = [⟨.UpdateObjectStorageBucketAccess c l o, false⟩])
    (hC : C = [] ∨ (∃ c l, C = [⟨.DeleteObjectStorageBucketCert c l, false⟩]) ∨
      (∃ c l c2 l2 o, C = [⟨.DeleteObjectStorageBucketCert c l, false⟩,
        ⟨.UploadObjectStorageBucketCert c2 l2 o, false⟩]) ∨
      (∃ c l o, C = [⟨.UploadObjectStorageBucketCert c l o, false⟩]))
    (hR : R = [] ∨
      ∃ c l, (isErr = true ∧ R = [⟨.GetObjectStorageBucket c l, true⟩]) ∨
        ∃ g, isErr = g ∧ R = [⟨.GetObjectStorageBucket c l, false⟩,
          ⟨.GetObjectStorageBucketAccess c l, g⟩]) :
    FailFastLog isErr (A ++ (C ++ R)) := by
  rcases hA with rfl | ⟨ca, la, oa, rfl⟩ <;>
    rcases hC with rfl | ⟨cd, ld, rfl⟩ | ⟨cd, ld, cu, lu, ou, rfl⟩ | ⟨cu, lu, ou, rfl⟩ <;>
    rcases hR with rfl | ⟨c, l, ⟨rfl, rfl⟩ | ⟨g, rfl, rfl⟩⟩ <;>
    simp [FailFastLog, failedOnlyLast]

/-- Fail-fast reading of a pass that stopped at a failed certificate call. -/
theorem failFast_of_cert_failure (A C : List Event)
    (hA : A = [] ∨ ∃ c l o, A = [⟨.UpdateObjectStorageBucketAccess c l o, false⟩])
    (hC : (∃ c l, C = [⟨.DeleteObjectStorageBucketCert c l, true⟩]) ∨
      (∃ c l c2 l2 o, C = [⟨.DeleteObjectStorageBucketCert c l, false⟩,
        ⟨.UploadObjectStorageBucketCert c2 l2 o, true⟩]) ∨
      (∃ c l o, C = [⟨.UploadObjectStorageBucketCert c l o, true⟩])) :
    FailFastLog true (A ++ C) := by
  rcases hA with rfl | ⟨ca, la, oa, rfl⟩ <;>
    rcases hC with ⟨cd, ld, rfl⟩ | ⟨cd, ld, cu, lu, ou, rfl⟩ | ⟨cu, lu, ou, rfl⟩ <;>
    simp [FailFastLog, failedOnlyLast]

/-- The certificate step and the trailing read of an update keep the fail-fast
reading and record the answers of the gateway, after no call or after one
successful access-policy update. -/
theorem certStep_failFast (client : Client) (d : ResourceData) (log A : Log)
    (hA : A = [] ∨ ∃ c l o, A = [⟨.UpdateObjectStorageBucketAccess c l o, false⟩])
    (hArec : answersRecorded client log A = true) :
    ∃ new,
      (if d.HasChange .cert = true then
          afterCert client d (updateLinodeObjectStorageBucketCert d client (log ++ A))
        else resourceLinodeObjectStorageBucketRead client d (log ++ A)).log = log ++ new ∧
      FailFastLog
        (if d.HasChange .cert = true then
          afterCert client d (updateLinodeObjectStorageBucketCert d client (log ++ A))
        else resourceLinodeObjectStorageBucketRead client d (log ++ A)).err.isSome new ∧
      answersRecorded client log new = true ∧
      ((if d.HasChange .cert = true then
          afterCert client d (updateLinodeObjectStorageBucketCert d client (log ++ A))
        else resourceLinodeObjectStorageBucketRead client d (log ++ A)).panicked = true →
        (if d.HasChange .cert = true then
          afterCert client d (updateLinodeObjectStorageBucketCert d client (log ++ A))
        else resourceLinodeObjectStorageBucketRead client d (log ++ A)).err = none) := by
  by_cases hC : d.HasChange .cert = true
  · simp only [hC, if_true]
    obtain ⟨err, C, p, hCe, hCrec, hshape⟩ := cert_cases d client (log ++ A)
    rw [hCe]
    have hACrec : answersRecorded client log (A ++ C) = true := by
      rw [answersRecorded_append, hArec, hCrec]
      rfl
    cases p with
    | true =>
      refine ⟨A ++ (C ++ []), by simp [afterCert], ?_, by simpa using hACrec,
        by simp [afterCert]⟩
      have herr : (afterCert client d ⟨err, log ++ A ++ C, true⟩).err.isSome = false := by
        simp [afterCert]
      rw [herr]
      apply failFast_of_shapes _ A C [] hA _ (Or.inl rfl)
      rcases hshape with ⟨_, _, h, _⟩ | ⟨_, _, _, h, _⟩ | ⟨c0, cs, f, _, _, _, h, _⟩ |
        ⟨cs, _, _, _, _, rfl⟩ | ⟨_, _, _, h, _⟩ | ⟨c0, cs, f, _, _, _, h, _⟩ |
        ⟨cs, _, _, _, _, rfl⟩
      · exact absurd h (by simp)
      · exact absurd h (by simp)
      · exact absurd h (by simp)
      · exact Or.inr (Or.inl ⟨_, _, rfl⟩)
      · exact absurd h (by simp)
      · exact absurd h (by simp)
      · exact Or.inl rfl
    | false =>
      cases err with
      | some e =>
        refine ⟨A ++ C, by simp [afterCert], ?_, hACrec, by simp [afterCert]⟩
        have herr : (afterCert client d ⟨some e, log ++ A ++ C, false⟩).err.isSome = true := by
          simp [afterCert]
        rw [herr]
        apply failFast_of_cert_failure A C hA
        rcases hshape with ⟨_, _, _, rfl⟩ | ⟨_, _, h, _⟩ | ⟨c0, cs, f, _, _, hf, _, rfl⟩ |
          ⟨cs, _, _, h, _⟩ | ⟨_, _, h, _⟩ | ⟨c0, cs, f, _, _, hf, _, rfl⟩ |
          ⟨cs, _, _, h, _⟩
        · exact Or.inl ⟨_, _, rfl⟩
        · exact absurd h (by simp)
        · simp at hf
          subst hf
          exact Or.inr (Or.inl ⟨_, _, _, _, _, rfl⟩)
        · exact absurd h (by simp)
        · exact absurd h (by simp)
        · simp at hf
          subst hf
          exact Or.inr (Or.inr ⟨_, _, _, rfl⟩)
        · exact absurd h (by simp)
      | none =>
        obtain ⟨R, -, hR, hp, hRrec, hrs⟩ := read_issued client d log (A ++ C)
        simp only [List.append_assoc] at hR hp hRrec hrs
        simp only [afterCert, Bool.false_eq_true, if_false, List.append_assoc]
        refine ⟨A ++ (C ++ R), hR, ?_, ?_, ?_⟩
        · apply failFast_of_shapes _ A C R hA
          · rcases hshape with ⟨_, h, _⟩ | ⟨_, _, _, _, rfl⟩ | ⟨c0, cs, f, _, _, hf, _, rfl⟩ |
              ⟨cs, _, _, _, h, _⟩ | ⟨_, _, _, _, rfl⟩ | ⟨c0, cs, f, _, _, hf, _, rfl⟩ |
              ⟨cs, _, _, _, h, _⟩
            · exact absurd h (by simp)
            · exact Or.inr (Or.inl ⟨_, _, rfl⟩)
            · simp at hf
              subst hf
              exact Or.inr (Or.inr (Or.inl ⟨_, _, _, _, _, rfl⟩))
            · exact absurd h (by simp)
            · exact Or.inl rfl
            · simp at hf
              subst hf
              exact Or.inr (Or.inr (Or.inr ⟨_, _, _, rfl⟩))
            · exact absurd h (by simp)
          · rcases hrs with ⟨he, rfl⟩ | ⟨c, l, _, ⟨he, rfl⟩ | ⟨g, he, rfl⟩⟩
            · exact Or.inl rfl
            · exact Or.inr ⟨c, l, Or.inl ⟨he, rfl⟩⟩
            · exact Or.inr ⟨c, l, Or.inr ⟨g, he, rfl⟩⟩
        · have : A ++ (C ++ R) = (A ++ C) ++ R := by simp
          rw [this, answersRecorded_append, hACrec]
          simpa using hRrec
        · intro h
          rw [hp] at h
          exact absurd h (by simp)
  · simp only [hC, Bool.false_eq_true, if_false]
    obtain ⟨R, -, hR, hp, hRrec, hrs⟩ := read_issued client d log A
    refine ⟨A ++ ([] ++ R), by simpa using hR, ?_, ?_, ?_⟩
    · apply failFast_of_shapes _ A [] R hA (Or.inl rfl)
      rcases hrs with ⟨he, rfl⟩ | ⟨c, l, _, ⟨he, rfl⟩ | ⟨g, he, rfl⟩⟩
      · exact Or.inl rfl
      · exact Or.inr ⟨c, l, Or.inl ⟨he, rfl⟩⟩
      · exact Or.inr ⟨c, l, Or.inr ⟨g, he, rfl⟩⟩
    · rw [List.nil_append, answersRecorded_append, hArec, hRrec]
      rfl
    · intro h
      rw [hp] at h
      exact absurd h (by simp)

/-- An update pass has the fail-fast reading, its events record the answers of
the gateway, and a pass that panicked returned nothing. -/
theorem update_failFastLog (client : Client) (d : ResourceData) (log : Log) :
    ∃ new, (resourceLinodeObjectStorageBucketUpdate client d log).log = log ++ new ∧
      FailFastLog (resourceLinodeObjectStorageBucketUpdate client d log).err.isSome new ∧
      answersRecorded client log new = true ∧
      ((resourceLinodeObjectStorageBucketUpdate client d log).panicked = true →
        (resourceLinodeObjectStorageBucketUpdate client d log).err = none) := by
  unfold resourceLinodeObjectStorageBucketUpdate
  simp only
  by_cases hchg : d.HasChanges [.acl, .cors_enabled] = true
  · simp only [hchg, if_true]
    rw [access_eq]
    cases hcl : client.UpdateObjectStorageBucketAccess log d.values.cluster d.values.label
        (changedAccessOptions d) with
    | none =>
      simp only
      exact certStep_failFast client d log _ (Or.inr ⟨_, _, _, rfl⟩)
        (by simp [answersRecorded, Client.fails, hcl])
    | some e =>
      simp only
      refine ⟨_, rfl, ?_, by simp [answersRecorded, Client.fails, hcl], by simp⟩
      simp only [FailFastLog, failedOnlyLast, List.mem_singleton, Option.isSome_some]
      refine ⟨trivial, fun _ _ _ => trivial, ?_, ?_⟩
      · intro c l h
        simp at h
      · intro c l o h
        rw [h]
  · simp only [hchg, Bool.false_eq_true, if_false]
    have := certStep_failFast client d log [] (Or.inl rfl) (by simp [answersRecorded])
    simpa using this

/-- C6. Fail-fast update: in every pass of
`resourceLinodeObjectStorageBucketUpdate`, the log records for each call the
answer the gateway gave to it; a call the gateway answered with an error is
recorded as failed, is the last call of the pass, and the pass returns an
error (it does not panic). A `DeleteCertificate` the gateway answered with an
error leaves no `UploadCertificate` in the pass, and an `UpdateAccessPolicy`
the gateway answered with an error is the only call of the pass (no
certificate operation, no re-read). -/
theorem update_fail_fast (client : Client) (d : ResourceData) (log : Log) :
    (resourceLinodeObjectStorageBucketUpdate client d log).log =
      log ++ issued log (resourceLinodeObjectStorageBucketUpdate client d log).log ∧
    (∀ pre e post,
      issued log (resourceLinodeObjectStorageBucketUpdate client d log).log = pre ++ e :: post →
        e.failed = client.fails (log ++ pre) e.call) ∧
    (∀ pre e post,
      issued log (resourceLinodeObjectStorageBucketUpdate client d log).log = pre ++ e :: post →
      client.fails (log ++ pre) e.call = true →
        post = [] ∧
        (resourceLinodeObjectStorageBucketUpdate client d log).err.isSome = true ∧
        (resourceLinodeObjectStorageBucketUpdate client d log).panicked = false) ∧
    (∀ pre c l f post,
      issued log (resourceLinodeObjectStorageBucketUpdate client d log).log =
        pre ++ ⟨.DeleteObjectStorageBucketCert c l, f⟩ :: post →
      client.DeleteObjectStorageBucketCert (log ++ pre) c l ≠ none →
        ∀ e ∈ issued log (resourceLinodeObjectStorageBucketUpdate client d log).log,
          ∀ c2 l2 o2, e.call ≠ .UploadObjectStorageBucketCert c2 l2 o2) ∧
    (∀ pre c l o f post,
      issued log (resourceLinodeObjectStorageBucketUpdate client d log).log =
        pre ++ ⟨.UpdateObjectStorageBucketAccess c l o, f⟩ :: post →
      client.UpdateObjectStorageBucketAccess (log ++ pre) c l o ≠ none →
        issued log (resourceLinodeObjectStorageBucketUpdate client d log).log =
          [⟨.UpdateObjectStorageBucketAccess c l o, true⟩]) := by
  obtain ⟨new, hlog, ⟨hlast, herr, hdel, hacc⟩, hrec, hpanic⟩ := update_failFastLog client d log
  rw [hlog, issued_append]
  have hflag : ∀ pre e post, new = pre ++ e :: post →
      e.failed = client.fails (log ++ pre) e.call :=
    fun pre e post h => answersRecorded_spec client log new hrec pre e post h
  refine ⟨rfl, hflag, ?_, ?_, ?_⟩
  · intro pre e post hnew hfails
    have he : e.failed = true := (hflag pre e post hnew).trans hfails
    have hsome := herr e (by simp [hnew]) he
    refine ⟨failedOnlyLast_spec new hlast pre e post hnew he, hsome, ?_⟩
    cases hp : (resourceLinodeObjectStorageBucketUpdate client d log).panicked with
    | false => rfl
    | true =>
      rw [hpanic hp] at hsome
      simp at hsome
  · intro pre c l f post hnew hfails
    have hf := hflag pre _ post hnew
    simp only [Client.fails] at hf
    have hf2 : f = true := by
      rw [hf]
      cases h : client.DeleteObjectStorageBucketCert (log ++ pre) c l with
      | none => exact absurd h hfails
      | some x => rfl
    subst hf2
    exact hdel c l (by simp [hnew])
  · intro pre c l o f post hnew hfails
    have hf := hflag pre _ post hnew
    simp only [Client.fails] at hf
    have hf2 : f = true := by
      rw [hf]
      cases h : client.UpdateObjectStorageBucketAccess (log ++ pre) c l o with
      | none => exact absurd h hfails
      | some x => rfl
    subst hf2
    exact hacc c l o (by simp [hnew])

theorem update_fail_fast_witness :
    (∀ e ∈ issued [] (resourceLinodeObjectStorageBucketUpdate certDeleteFailsClient
        (sampleData ("private", true, [some certA]) ("private", true, [some certB])) []).log,
      ∀ c2 l2 o2, e.call ≠ .UploadObjectStorageBucketCert c2 l2 o2) ∧
    (resourceLinodeObjectStorageBucketUpdate certDeleteFailsClient
        (sampleData ("private", true, [some certA]) ("private", true, [some certB])) []).err.isSome
      = true :=
  have h := update_fail_fast certDeleteFailsClient
    (sampleData ("private", true, [some certA]) ("private", true, [some certB])) []
  ⟨h.2.2.2.1 [] "us-east" "b1" true [] (by decide) (by decide),
   (h.2.2.1 [] ⟨.DeleteObjectStorageBucketCert "us-east" "b1", true⟩ [] (by decide)
      (by decide)).2.1⟩

/-- A fail-fast run: with a certificate to rotate and a gateway whose certificate
deletion fails, the update issues the deletion alone and returns its error. -/
theorem update_cert_delete_fails_run :
    (resourceLinodeObjectStorageBucketUpdate certDeleteFailsClient
        (sampleData ("private", true, [some certA]) ("private", true, [some certB])) []).log =
      [⟨.DeleteObjectStorageBucketCert "us-east" "b1", true⟩] ∧
    (resourceLinodeObjectStorageBucketUpdate certDeleteFailsClient
        (sampleData ("private", true, [some certA]) ("private", true, [some certB])) []).err =
      some "failed to delete old bucket cert: [500] Internal error" := by
  refine ⟨by decide, by decide⟩

/-- A fail-fast run: with a first certificate to upload and a gateway whose
certificate upload fails, the update issues the upload alone, records it as
failed and returns its error without reading back. -/
theorem update_cert_upload_fails_run :
    (resourceLinodeObjectStorageBucketUpdate certUploadFailsClient
        (sampleData ("private", true, []) ("private", true, [some certB])) []).log =
      [⟨.UploadObjectStorageBucketCert "us-east" "b1" ⟨"PEM_B", "KEY_B"⟩, true⟩] ∧
    (resourceLinodeObjectStorageBucketUpdate certUploadFailsClient
        (sampleData ("private", true, []) ("private", true, [some certB])) []).err =
      some "failed to upload new bucket cert: [500] Internal error" := by
  refine ⟨by decide, by decide⟩

end linode
